import Mathlib

/-!
TinySTL: object lifecycle, uninitialized range operations, temporary buffer,
auto_ptr, allocator

A shallow embedding of `construct.h`, `uninitialized.h`, `memory.h`, `allocator.h`, the
`swap` functions and the comparison operators of `pair` of `utils.h`, and `advance` of
`iterator.h`.

Conventions of the embedding

* Pointers and iterators are natural-number addresses; `nullptr` is address `0`;
  `&*it` is `it`; `++it` is `it + 1`.
* Memory is a total map from addresses to slots.  A slot carries its lifecycle state
  (uninitialized, live, destroyed) and the value (bit pattern) stored in it.
* Every lifecycle and platform action is appended to a trace, so that the order and
  the number of constructions, `destroy` calls, destructor runs, `malloc` and `free`
  calls can be observed, as an instrumented element type would observe them.
* A C++ exception is the outcome `raised`; a `try`/`catch (...)` is a case split
  on the outcome of the protected block.
* An iterator range `[first, last)` is valid (`last` is reachable from `first`), so the
  loop `for (; first != last; ++first)` runs `last - first` times.
-/

namespace mystl

/-! ## Data model -/

/-- Lifecycle state of a slot. -/
inductive SlotState where
  | uninitialized
  | live
  | destroyed
deriving DecidableEq, Repr

/-- One element-sized storage location: lifecycle state and stored value. -/
structure Slot (α : Type) where
  state : SlotState
  val : α
deriving DecidableEq, Repr

/-- Observable actions, in the order they happen. -/
inductive Event where
  /-- a placement construction at `p` completed -/
  | construct (p : Nat)
  /-- the single-slot `mystl::destroy(T*)` was called with `p` -/
  | destroy (p : Nat)
  /-- the destructor `p->~T()` ran -/
  | dtor (p : Nat)
  /-- the platform allocation call was issued for `bytes` bytes and answered `p` -/
  | malloc (bytes p : Nat)
  /-- the platform release call was issued on `p` -/
  | free (p : Nat)
deriving DecidableEq, Repr

/-- Memory together with the trace of everything done so far. -/
structure Mem (α : Type) where
  slot : Nat → Slot α
  trace : List Event

/-- How a call ends: it returns a value, or an exception leaves it. -/
inductive Outcome (ρ : Type) where
  | returned (r : ρ)
  | raised
deriving DecidableEq, Repr

/-- The compile-time properties of an element type that the code dispatches on
(`std::is_trivially_destructible` and the like). -/
structure Traits where
  trivially_destructible : Bool
  trivially_copy_assignable : Bool
  trivially_move_assignable : Bool
  trivially_default_constructible : Bool
deriving DecidableEq, Repr

/-- An element type `T` as the code sees it: its traits, `sizeof(T)`, at which
addresses its copy / move constructor throws, and the value a moved-from object is
left with. -/
structure ElemType (α : Type) where
  traits : Traits
  sizeof : Nat
  copy_throws : Nat → Bool
  move_throws : Nat → Bool
  moved_from : α → α

/-- Memory `m` with the slot at `p` replaced by `s`. -/
def Mem.write (m : Mem α) (p : Nat) (s : Slot α) : Nat → Slot α :=
  fun q => if q = p then s else m.slot q

/-- Appends one event to the trace. -/
def Mem.log (m : Mem α) (e : Event) : Mem α :=
  { slot := m.slot, trace := m.trace ++ [e] }

/-- Addresses passed to the single-slot `destroy`, in call order. -/
def destroy_calls : List Event → List Nat
  | [] => []
  | Event.destroy p :: es => p :: destroy_calls es
  | _ :: es => destroy_calls es

/-- Addresses whose destructor ran, in order. -/
def dtor_runs : List Event → List Nat
  | [] => []
  | Event.dtor p :: es => p :: dtor_runs es
  | _ :: es => dtor_runs es

/-- Addresses at which a construction completed, in order. -/
def constructions : List Event → List Nat
  | [] => []
  | Event.construct p :: es => p :: constructions es
  | _ :: es => constructions es

/-- Addresses handed to the platform release call, in order. -/
def free_calls : List Event → List Nat
  | [] => []
  | Event.free p :: es => p :: free_calls es
  | _ :: es => free_calls es

/-! ## construct.h -/

/-- Embeds `construct(T1* ptr, const T2& value)`: `::new ((void*)ptr) T1(value)`.
The copy constructor either throws (the slot is left as it was) or makes the slot a
live object holding a copy of `value`. -/
def construct (E : ElemType α) (ptr : Nat) (value : α) (m : Mem α) : Mem α × Outcome Unit :=
  if E.copy_throws ptr then (m, Outcome.raised)
  else ({ slot := m.write ptr ⟨SlotState.live, value⟩,
          trace := m.trace ++ [Event.construct ptr] }, Outcome.returned ())

/-- Embeds `construct(T* ptr, Args&&... args)` called as `construct(&*cur, mystl::move(*first))`:
`::new ((void*)ptr) T(mystl::forward<Args>(args)...)`, the move constructor.  It either
throws (nothing changes) or makes the slot at `ptr` live with the value of the source
object at `src`, which is left in its moved-from state. -/
def construct_args (E : ElemType α) (ptr src : Nat) (m : Mem α) : Mem α × Outcome Unit :=
  if E.move_throws ptr then (m, Outcome.raised)
  else
    let v := (m.slot src).val
    let m1 : Mem α := { slot := m.write src ⟨(m.slot src).state, E.moved_from v⟩, trace := m.trace }
    ({ slot := m1.write ptr ⟨SlotState.live, v⟩,
       trace := m.trace ++ [Event.construct ptr] }, Outcome.returned ())

/-- Embeds `destroy_one(T*, std::true_type) {}`. -/
def destroy_one_true_type (_pointer : Nat) (m : Mem α) : Mem α := m

/-- Embeds `destroy_one(T* pointer, std::false_type)`: runs the destructor unless the pointer
is null. -/
def destroy_one_false_type (pointer : Nat) (m : Mem α) : Mem α :=
  if pointer ≠ 0 then
    { slot := m.write pointer ⟨SlotState.destroyed, (m.slot pointer).val⟩,
      trace := m.trace ++ [Event.dtor pointer] }
  else m

/-- Embeds `destroy(T* pointer)`: dispatches on `std::is_trivially_destructible<T>`. -/
def destroy (E : ElemType α) (pointer : Nat) (m : Mem α) : Mem α :=
  if E.traits.trivially_destructible then destroy_one_true_type pointer (m.log (Event.destroy pointer))
  else destroy_one_false_type pointer (m.log (Event.destroy pointer))

/-- The loop `for (; first != last; ++first) destroy(&*first);` run for the `n` slots
from `first` on. -/
def destroy_each (E : ElemType α) : Nat → Nat → Mem α → Mem α
  | 0, _, m => m
  | n + 1, first, m => destroy_each E n (first + 1) (destroy E first m)

/-- Embeds `destroy_cat(ForwardIter, ForwardIter, std::true_type) {}`. -/
def destroy_cat_true_type (_first _last : Nat) (m : Mem α) : Mem α := m

/-- Embeds `destroy_cat(ForwardIter first, ForwardIter last, std::false_type)`. -/
def destroy_cat_false_type (E : ElemType α) (first last : Nat) (m : Mem α) : Mem α :=
  destroy_each E (last - first) first m

/-- Embeds `destroy(ForwardIter first, ForwardIter last)`: dispatches on
`std::is_trivially_destructible` of the iterator's value type. -/
def destroy_range (E : ElemType α) (first last : Nat) (m : Mem α) : Mem α :=
  if E.traits.trivially_destructible then destroy_cat_true_type first last m
  else destroy_cat_false_type E first last m

/-! ## uninitialized.h -/

/-- The protected loop `try { for (; n > 0; --n, ++first, ++cur) body }` shared by the
non-trivial paths: runs `body cur first` up to `n` times, advancing both iterators, and
stops at the first body that raises.  Returns the memory, the final `cur`, and whether
an exception was caught. -/
def try_loop (body : Nat → Nat → Mem α → Mem α × Outcome Unit) :
    Nat → Nat → Nat → Mem α → Mem α × Nat × Bool
  | 0, _, cur, m => (m, cur, false)
  | n + 1, first, cur, m =>
    match body cur first m with
    | (m1, Outcome.returned _) => try_loop body n (first + 1) (cur + 1) m1
    | (m1, Outcome.raised) => (m1, cur, true)

/-- The catch-block loop `for (; result != cur; --cur) destroy(&*cur);` of
`unchecked_uninit_copy` and `unchecked_uninit_copy_n`, run for the `n = cur - result`
steps it takes.  Returns the memory and the final `cur`. -/
def destroy_down (E : ElemType α) : Nat → Nat → Mem α → Mem α × Nat
  | 0, cur, m => (m, cur)
  | n + 1, cur, m => destroy_down E n (cur - 1) (destroy E cur m)

/-- Embeds `unchecked_uninit_copy(first, last, result, std::false_type)`. -/
def unchecked_uninit_copy_false_type (E : ElemType α) (first last result : Nat) (m : Mem α) :
    Mem α × Outcome Nat :=
  match try_loop (fun cur first m => construct E cur (m.slot first).val m)
      (last - first) first result m with
  | (m1, cur, false) => (m1, Outcome.returned cur)
  | (m1, cur, true) =>
    let r := destroy_down E (cur - result) cur m1
    (r.1, Outcome.returned r.2)

/-- Embeds `unchecked_uninit_copy_n(first, n, result, std::false_type)`. -/
def unchecked_uninit_copy_n_false_type (E : ElemType α) (first n result : Nat) (m : Mem α) :
    Mem α × Outcome Nat :=
  match try_loop (fun cur first m => construct E cur (m.slot first).val m) n first result m with
  | (m1, cur, false) => (m1, Outcome.returned cur)
  | (m1, cur, true) =>
    let r := destroy_down E (cur - result) cur m1
    (r.1, Outcome.returned r.2)

/-- Embeds `unchecked_uninit_fill(first, last, value, std::false_type)`. -/
def unchecked_uninit_fill_false_type (E : ElemType α) (first last : Nat) (value : α) (m : Mem α) :
    Mem α × Outcome Unit :=
  match try_loop (fun cur _ m => construct E cur value m) (last - first) first first m with
  | (m1, _, false) => (m1, Outcome.returned ())
  | (m1, cur, true) => (destroy_each E (cur - first) first m1, Outcome.returned ())

/-- Embeds `unchecked_uninit_fill_n(first, n, value, std::false_type)`. -/
def unchecked_uninit_fill_n_false_type (E : ElemType α) (first n : Nat) (value : α) (m : Mem α) :
    Mem α × Outcome Nat :=
  match try_loop (fun cur _ m => construct E cur value m) n first first m with
  | (m1, cur, false) => (m1, Outcome.returned cur)
  | (m1, cur, true) => (destroy_each E (cur - first) first m1, Outcome.returned cur)

/-- Embeds `unchecked_uninit_move(first, last, result, std::false_type)`. -/
def unchecked_uninit_move_false_type (E : ElemType α) (first last result : Nat) (m : Mem α) :
    Mem α × Outcome Nat :=
  match try_loop (fun cur first m => construct_args E cur first m)
      (last - first) first result m with
  | (m1, cur, false) => (m1, Outcome.returned cur)
  | (m1, cur, true) => (destroy_range E result cur m1, Outcome.returned cur)

/-- Embeds `unchecked_uninit_move_n(first, n, result, std::false_type)`: the only one of the
six whose handler ends in `throw;`. -/
def unchecked_uninit_move_n_false_type (E : ElemType α) (first n result : Nat) (m : Mem α) :
    Mem α × Outcome Nat :=
  match try_loop (fun cur first m => construct_args E cur first m) n first result m with
  | (m1, cur, false) => (m1, Outcome.returned cur)
  | (m1, cur, true) => (destroy_each E (cur - result) result m1, Outcome.raised)

/-! ## algobase.h (bulk operations of the trivial paths) -/

/-- Writes, for every `i < n`, the value `f i` into the slot at `dst + i`, leaving the
lifecycle states and all other slots as they are: one block memory operation. -/
def block_write (m : Mem α) (dst n : Nat) (f : Nat → α) : Mem α :=
  { slot := fun q => if dst ≤ q ∧ q < dst + n then ⟨(m.slot q).state, f (q - dst)⟩ else m.slot q,
    trace := m.trace }

/-- Modelled from the spec: `algobase.h` (`mystl::copy`) is not among the sources.  The
trivial path is "a bulk byte-range copy/fill equivalent to a block memory operation;
cannot fail partway", returning one past the last destination slot. -/
def copy (first last result : Nat) (m : Mem α) : Mem α × Nat :=
  (block_write m result (last - first) (fun i => (m.slot (first + i)).val), result + (last - first))

/-- Modelled from the spec: `algobase.h` (`mystl::copy_n`) is not among the sources.  A
block copy of `n` elements; returns the pair of the advanced source and destination
positions. -/
def copy_n (first n result : Nat) (m : Mem α) : Mem α × (Nat × Nat) :=
  (block_write m result n (fun i => (m.slot (first + i)).val), (first + n, result + n))

/-- Modelled from the spec: `algobase.h` (`mystl::fill`) is not among the sources.  A
block fill of `[first, last)` with `value`. -/
def fill (first last : Nat) (value : α) (m : Mem α) : Mem α :=
  block_write m first (last - first) (fun _ => value)

/-- Modelled from the spec: `algobase.h` (`mystl::fill_n`) is not among the sources.  A
block fill of `n` slots from `first` with `value`, "equivalent to a block memory
operation; cannot fail partway"; returns one past the last slot written. -/
def fill_n (first n : Nat) (value : α) (m : Mem α) : Mem α × Nat :=
  (block_write m first n (fun _ => value), first + n)

/-- Modelled from the spec: `algobase.h` (the range overload `mystl::move(first, last,
result)`) is not among the sources.  For a trivially move-assignable type the bulk move
is a block copy; returns one past the last destination slot. -/
def move_range (first last result : Nat) (m : Mem α) : Mem α × Nat :=
  (block_write m result (last - first) (fun i => (m.slot (first + i)).val), result + (last - first))

/-! ## uninitialized.h: trivial paths and dispatch

`S` stands for the traits of `iterator_traits<InputIter>::value_type` (the source
element type), `E` for the element type of the destination `ForwardIter`. -/

/-- Embeds `unchecked_uninit_copy(first, last, result, std::true_type)`. -/
def unchecked_uninit_copy_true_type (first last result : Nat) (m : Mem α) : Mem α × Outcome Nat :=
  ((copy first last result m).1, Outcome.returned (copy first last result m).2)

/-- Embeds `uninitialized_copy`: dispatches on `is_trivially_copy_assignable` of the value type
of `ForwardIter`. -/
def uninitialized_copy (E : ElemType α) (first last result : Nat) (m : Mem α) : Mem α × Outcome Nat :=
  if E.traits.trivially_copy_assignable then unchecked_uninit_copy_true_type first last result m
  else unchecked_uninit_copy_false_type E first last result m

/-- Embeds `unchecked_uninit_copy_n(first, n, result, std::true_type)`. -/
def unchecked_uninit_copy_n_true_type (first n result : Nat) (m : Mem α) : Mem α × Outcome Nat :=
  ((copy_n first n result m).1, Outcome.returned (copy_n first n result m).2.2)

/-- Embeds `uninitialized_copy_n`: dispatches on `is_trivially_copy_assignable` of the value type
of `InputIter`. -/
def uninitialized_copy_n (S : Traits) (E : ElemType α) (first n result : Nat) (m : Mem α) :
    Mem α × Outcome Nat :=
  if S.trivially_copy_assignable then unchecked_uninit_copy_n_true_type first n result m
  else unchecked_uninit_copy_n_false_type E first n result m

/-- Embeds `unchecked_uninit_fill(first, last, value, std::true_type)`. -/
def unchecked_uninit_fill_true_type (first last : Nat) (value : α) (m : Mem α) :
    Mem α × Outcome Unit :=
  (fill first last value m, Outcome.returned ())

/-- Embeds `uninitialized_fill`: dispatches on `is_trivially_copy_assignable` of the value type
of `ForwardIter`. -/
def uninitialized_fill (E : ElemType α) (first last : Nat) (value : α) (m : Mem α) :
    Mem α × Outcome Unit :=
  if E.traits.trivially_copy_assignable then unchecked_uninit_fill_true_type first last value m
  else unchecked_uninit_fill_false_type E first last value m

/-- Embeds `unchecked_uninit_fill_n(first, n, value, std::true_type)`. -/
def unchecked_uninit_fill_n_true_type (first n : Nat) (value : α) (m : Mem α) :
    Mem α × Outcome Nat :=
  ((fill_n first n value m).1, Outcome.returned (fill_n first n value m).2)

/-- Embeds `uninitialized_fill_n`: dispatches on `is_trivially_copy_assignable` of the value type
of `ForwardIter`. -/
def uninitialized_fill_n (E : ElemType α) (first n : Nat) (value : α) (m : Mem α) :
    Mem α × Outcome Nat :=
  if E.traits.trivially_copy_assignable then unchecked_uninit_fill_n_true_type first n value m
  else unchecked_uninit_fill_n_false_type E first n value m

/-- Embeds `unchecked_uninit_move(first, last, result, std::true_type)`. -/
def unchecked_uninit_move_true_type (first last result : Nat) (m : Mem α) : Mem α × Outcome Nat :=
  ((move_range first last result m).1, Outcome.returned (move_range first last result m).2)

/-- Embeds `uninitialized_move`: dispatches on `is_trivially_move_assignable` of the value type
of `InputIter`. -/
def uninitialized_move (S : Traits) (E : ElemType α) (first last result : Nat) (m : Mem α) :
    Mem α × Outcome Nat :=
  if S.trivially_move_assignable then unchecked_uninit_move_true_type first last result m
  else unchecked_uninit_move_false_type E first last result m

/-- Embeds `unchecked_uninit_move_n(first, n, result, std::true_type)`:
`mystl::move(first, first + n, result)`. -/
def unchecked_uninit_move_n_true_type (first n result : Nat) (m : Mem α) : Mem α × Outcome Nat :=
  ((move_range first (first + n) result m).1,
   Outcome.returned (move_range first (first + n) result m).2)

/-- Embeds `uninitialized_move_n`: dispatches on `is_trivially_move_assignable` of the value type
of `InputIter`. -/
def uninitialized_move_n (S : Traits) (E : ElemType α) (first n result : Nat) (m : Mem α) :
    Mem α × Outcome Nat :=
  if S.trivially_move_assignable then unchecked_uninit_move_n_true_type first n result m
  else unchecked_uninit_move_n_false_type E first n result m

/-! ## memory.h: temporary_buffer -/

/-- Embeds `INT_MAX` of `<climits>` (a 32-bit `int`). -/
def INT_MAX : Nat := 2147483647

/-- Embeds `mystl::distance(first, last)` on a valid range. -/
def distance (first last : Nat) : Nat := last - first

/-- A call of the platform's `malloc`.  The answer (`0` for a null result) may depend on
everything that happened before the call and on the byte count asked for. -/
def malloc_call (malloc : List Event → Nat → Nat) (bytes : Nat) (m : Mem α) : Mem α × Nat :=
  (m.log (Event.malloc bytes (malloc m.trace bytes)), malloc m.trace bytes)

/-- A call of the platform's `free`. -/
def free (p : Nat) (m : Mem α) : Mem α := m.log (Event.free p)

/-- The data members of `temporary_buffer<ForwardIterator, T>`. -/
structure temporary_buffer where
  original_len : Nat
  len : Nat
  buffer : Nat
deriving DecidableEq, Repr

/-- Embeds `size()`. -/
def temporary_buffer.size (self : temporary_buffer) : Nat := self.len

/-- Embeds `requested_size()`. -/
def temporary_buffer.requested_size (self : temporary_buffer) : Nat := self.original_len

/-- Embeds `begin()`. -/
def temporary_buffer.begin (self : temporary_buffer) : Nat := self.buffer

/-- Embeds `end()`. -/
def temporary_buffer.end (self : temporary_buffer) : Nat := self.buffer + self.len

/-- The loop of `allocate_buffer`:
`while (len > 0) { buffer = malloc(len * sizeof(T)); if (buffer) break; len /= 2; }`.
Returns the memory and the final `len` and `buffer`. -/
def allocate_buffer_loop (malloc : List Event → Nat → Nat) (sizeof : Nat)
    (len buffer : Nat) (m : Mem α) : Mem α × Nat × Nat :=
  if _h : len > 0 then
    if (malloc_call malloc (len * sizeof) m).2 ≠ 0 then
      ((malloc_call malloc (len * sizeof) m).1, len, (malloc_call malloc (len * sizeof) m).2)
    else
      allocate_buffer_loop malloc sizeof (len / 2) (malloc_call malloc (len * sizeof) m).2
        (malloc_call malloc (len * sizeof) m).1
  else (m, len, buffer)
termination_by len
decreasing_by exact Nat.div_lt_self (by assumption) (by decide)

/-- Embeds `temporary_buffer::allocate_buffer()`. -/
def temporary_buffer.allocate_buffer (malloc : List Event → Nat → Nat) (E : ElemType α)
    (self : temporary_buffer) (m : Mem α) : Mem α × temporary_buffer :=
  let len := if self.len > INT_MAX / E.sizeof then INT_MAX / E.sizeof else self.len
  let r := allocate_buffer_loop malloc E.sizeof len self.buffer m
  (r.1, { original_len := self.len, len := r.2.1, buffer := r.2.2 })

/-- Embeds `initialize_buffer(const T&, std::true_type) {}` and
`initialize_buffer(const T& value, std::false_type)`, selected by
`std::is_trivially_default_constructible<T>`. -/
def temporary_buffer.initialize_buffer (E : ElemType α) (self : temporary_buffer) (value : α)
    (m : Mem α) : Mem α × Outcome Unit :=
  if E.traits.trivially_default_constructible then (m, Outcome.returned ())
  else
    match uninitialized_fill_n E self.buffer self.len value m with
    | (m1, Outcome.returned _) => (m1, Outcome.returned ())
    | (m1, Outcome.raised) => (m1, Outcome.raised)

/-- The constructor `temporary_buffer(ForwardIterator first, ForwardIterator last)`.
`self` holds the indeterminate values the members have on entry (none of them has an
initializer). -/
def temporary_buffer.ctor (malloc : List Event → Nat → Nat) (E : ElemType α)
    (first last : Nat) (self : temporary_buffer) (m : Mem α) :
    Mem α × temporary_buffer × Outcome Unit :=
  let r := temporary_buffer.allocate_buffer malloc E { self with len := distance first last } m
  let f := if r.2.len > 0 then r.2.initialize_buffer E (r.1.slot first).val r.1
           else (r.1, Outcome.returned ())
  match f with
  | (m2, Outcome.returned _) => (m2, r.2, Outcome.returned ())
  | (m2, Outcome.raised) =>
    (free r.2.buffer m2, { original_len := r.2.original_len, len := 0, buffer := 0 },
     Outcome.returned ())

/-- The destructor `~temporary_buffer()`. -/
def temporary_buffer.dtor (E : ElemType α) (self : temporary_buffer) (m : Mem α) : Mem α :=
  free self.buffer (destroy_range E self.buffer (self.buffer + self.len) m)

/-- Byte counts asked of the platform allocation call, in call order. -/
def malloc_requests : List Event → List Nat
  | [] => []
  | Event.malloc bytes _ :: es => bytes :: malloc_requests es
  | _ :: es => malloc_requests es

/-! ## memory.h: get_temporary_buffer

The requested length is a `ptrdiff_t` handed in by the caller, so it is an integer
that may be negative. -/

/-- The loop of `get_buffer_helper`:
`while (len > 0) { T* tmp = malloc(static_cast<size_t>(len) * sizeof(T));
if (tmp) return pair(tmp, len); len /= 2; } return pair(nullptr, 0);`. -/
def get_buffer_loop (malloc : List Event → Nat → Nat) (sizeof : Nat) (len : Int) (m : Mem α) :
    Mem α × (Nat × Int) :=
  if _h : len > 0 then
    if (malloc_call malloc (len.toNat * sizeof) m).2 ≠ 0 then
      ((malloc_call malloc (len.toNat * sizeof) m).1,
        ((malloc_call malloc (len.toNat * sizeof) m).2, len))
    else
      get_buffer_loop malloc sizeof (len / 2) (malloc_call malloc (len.toNat * sizeof) m).1
  else (m, (0, 0))
termination_by len.toNat
decreasing_by omega

/-- Embeds `get_buffer_helper(ptrdiff_t len, T*)`; the result is the pair
`(pointer, length)`. -/
def get_buffer_helper (malloc : List Event → Nat → Nat) (sizeof : Nat) (len : Int) (m : Mem α) :
    Mem α × (Nat × Int) :=
  get_buffer_loop malloc sizeof
    (if len > ((INT_MAX / sizeof : Nat) : Int) then ((INT_MAX / sizeof : Nat) : Int) else len) m

/-- Embeds `get_temporary_buffer<T>(ptrdiff_t len)` and
`get_temporary_buffer(ptrdiff_t len, T*)`, which both forward to `get_buffer_helper`. -/
def get_temporary_buffer (malloc : List Event → Nat → Nat) (E : ElemType α) (len : Int)
    (m : Mem α) : Mem α × (Nat × Int) :=
  get_buffer_helper malloc E.sizeof len m

/-- Embeds `release_temporary_buffer(T* ptr)`. -/
def release_temporary_buffer (ptr : Nat) (m : Mem α) : Mem α := free ptr m

/-! ## memory.h: auto_ptr

An `auto_ptr` object is its data member `m_ptr`.  The `auto_ptr` objects of a program
are kept in a list, an object's position being its identity (its address): this is what
`this != &rhs` compares.  An entry is `none` once the object's destructor has run.
Next to them stands the list of the objects that a `delete` expression freed, in
order; `delete` of a null pointer does nothing. -/

/-- The data member of `auto_ptr<T>`. -/
structure auto_ptr where
  m_ptr : Nat
deriving DecidableEq, Repr

/-- The expression `delete p`: nothing for a null pointer, else the object is freed. -/
def delete_expr (p : Nat) (freed : List Nat) : List Nat :=
  if p ≠ 0 then freed ++ [p] else freed

/-- Embeds `explicit auto_ptr(T* p = nullptr)`. -/
def auto_ptr.ctor (p : Nat) : auto_ptr := ⟨p⟩

/-- Embeds `get()`. -/
def auto_ptr.get (self : auto_ptr) : Nat := self.m_ptr

/-- Embeds `release()`: `T* tmp = m_ptr; m_ptr = nullptr; return tmp;`.  Returns the
object after the call and the returned pointer. -/
def auto_ptr.release (self : auto_ptr) : auto_ptr × Nat := (⟨0⟩, self.m_ptr)

/-- Embeds `reset(T* p = nullptr)`: `if (m_ptr != p) { delete m_ptr; m_ptr = p; }`. -/
def auto_ptr.reset (self : auto_ptr) (p : Nat) (freed : List Nat) : auto_ptr × List Nat :=
  if self.m_ptr ≠ p then (⟨p⟩, delete_expr self.m_ptr freed) else (self, freed)

/-- Embeds `~auto_ptr() { delete m_ptr; }`. -/
def auto_ptr.dtor (self : auto_ptr) (freed : List Nat) : List Nat :=
  delete_expr self.m_ptr freed

/-- The `auto_ptr` objects of a program and the objects freed so far. -/
structure Owners where
  obj : List (Option auto_ptr)
  freed : List Nat
deriving DecidableEq, Repr

/-- The value of `get()` on the object at position `a` (`0` if there is no such
object). -/
def Owners.get_at (st : Owners) (a : Nat) : Nat :=
  match st.obj[a]? with
  | some (some x) => x.get
  | _ => 0

/-- Whether the entry `x` is a live `auto_ptr` object holding `p`, as a number: 1 if
so, else 0. -/
def holds (x : Option auto_ptr) (p : Nat) : Nat := if x = some ⟨p⟩ then 1 else 0

/-- Number of live `auto_ptr` objects that hold `p`. -/
def Owners.owners (st : Owners) (p : Nat) : Nat := (st.obj.map (fun x => holds x p)).sum

/-- No two live `auto_ptr` objects hold the same non-null object. -/
def Owners.unique_owner (st : Owners) : Prop := ∀ p, p ≠ 0 → st.owners p ≤ 1

/-- Embeds `auto_ptr(auto_ptr& rhs) : m_ptr(rhs.release()) {}` (and
`auto_ptr(auto_ptr<U>& rhs)`, which has the same body): a new object is constructed,
at the next free position, from the live object at `rhs`. -/
def Owners.copy_ctor (st : Owners) (rhs : Nat) : Owners :=
  match st.obj[rhs]? with
  | some (some r) =>
    { obj := st.obj.set rhs (some r.release.1) ++ [some ⟨r.release.2⟩], freed := st.freed }
  | _ => st

/-- Embeds `auto_ptr& operator=(auto_ptr& rhs)`:
`if (this != &rhs) { delete m_ptr; m_ptr = rhs.release(); }`. -/
def Owners.assign (st : Owners) (this rhs : Nat) : Owners :=
  match st.obj[this]?, st.obj[rhs]? with
  | some (some t), some (some r) =>
    if this ≠ rhs then
      { obj := (st.obj.set rhs (some r.release.1)).set this (some ⟨r.release.2⟩),
        freed := delete_expr t.m_ptr st.freed }
    else st
  | _, _ => st

/-- Embeds `template <class U> auto_ptr& operator=(auto_ptr<U>& rhs)`:
`if (this->get() != rhs.get()) { delete m_ptr; m_ptr = rhs.release(); }`. -/
def Owners.assign_converting (st : Owners) (this rhs : Nat) : Owners :=
  match st.obj[this]?, st.obj[rhs]? with
  | some (some t), some (some r) =>
    if t.get ≠ r.get then
      { obj := (st.obj.set rhs (some r.release.1)).set this (some ⟨r.release.2⟩),
        freed := delete_expr t.m_ptr st.freed }
    else st
  | _, _ => st

/-- The call `release()` on the live object at `a`; returns the state and the pointer
returned. -/
def Owners.release_at (st : Owners) (a : Nat) : Owners × Nat :=
  match st.obj[a]? with
  | some (some x) => ({ obj := st.obj.set a (some x.release.1), freed := st.freed }, x.release.2)
  | _ => (st, 0)

/-- The call `reset(p)` on the live object at `a`. -/
def Owners.reset_at (st : Owners) (a p : Nat) : Owners :=
  match st.obj[a]? with
  | some (some x) => { obj := st.obj.set a (some (x.reset p st.freed).1), freed := (x.reset p st.freed).2 }
  | _ => st

/-- The destruction of the live object at `a`. -/
def Owners.destroy_at (st : Owners) (a : Nat) : Owners :=
  match st.obj[a]? with
  | some (some x) => { obj := st.obj.set a none, freed := x.dtor st.freed }
  | _ => st

/-! ## allocator.h -/

/-- Width in bits of `size_t` (`allocator::size_type`). -/
def SIZE_BITS : Nat := 64

/-- Embeds `::operator new(bytes)`: it asks the platform for storage and throws when the
platform has none (answer `0`); it never returns null. -/
def operator_new (platform : List Event → Nat → Nat) (bytes : Nat) (m : Mem α) :
    Mem α × Outcome Nat :=
  if platform m.trace bytes ≠ 0 then
    (m.log (Event.malloc bytes (platform m.trace bytes)), Outcome.returned (platform m.trace bytes))
  else (m.log (Event.malloc bytes 0), Outcome.raised)

/-- Embeds `::operator delete(ptr)`: the platform release call. -/
def operator_delete (ptr : Nat) (m : Mem α) : Mem α := m.log (Event.free ptr)

/-- Embeds `allocator<T>::allocate()`: `::operator new(sizeof(T))`. -/
def allocator_allocate_one (platform : List Event → Nat → Nat) (E : ElemType α) (m : Mem α) :
    Mem α × Outcome Nat :=
  operator_new platform E.sizeof m

/-- Embeds `allocator<T>::allocate(size_type n)`:
`if (n == 0) return nullptr; return ::operator new(n * sizeof(T));`, the product being
taken in `size_t`. -/
def allocator_allocate (platform : List Event → Nat → Nat) (E : ElemType α) (n : Nat)
    (m : Mem α) : Mem α × Outcome Nat :=
  if n = 0 then (m, Outcome.returned 0)
  else operator_new platform (n * E.sizeof % 2 ^ SIZE_BITS) m

/-- Embeds `allocator<T>::deallocate(T* ptr)`:
`if (ptr == nullptr) return; ::operator delete(ptr);`. -/
def allocator_deallocate (ptr : Nat) (m : Mem α) : Mem α :=
  if ptr = 0 then m else operator_delete ptr m

/-- Embeds `allocator<T>::deallocate(T* ptr, size_type)`, which ignores the size. -/
def allocator_deallocate_n (ptr _size : Nat) (m : Mem α) : Mem α :=
  if ptr = 0 then m else operator_delete ptr m

/-! ## utils.h: swap -/

/-- The move assignment `dst = mystl::move(src)` of the element type: the object at
`dst` takes the value of the object at `src`, which is left in its moved-from state. -/
def move_assign (E : ElemType α) (dst src : Nat) (m : Mem α) : Mem α :=
  { slot :=
      (({ slot := m.write src ⟨(m.slot src).state, E.moved_from (m.slot src).val⟩,
          trace := m.trace } : Mem α).write dst ⟨(m.slot dst).state, (m.slot src).val⟩),
    trace := m.trace }

/-- Embeds `swap(Tp& lhs, Tp& rhs)`:
`auto tmp(mystl::move(lhs)); lhs = mystl::move(rhs); rhs = mystl::move(lhs);`.
The local `tmp` is move-constructed from `lhs` (which is left moved-from) and is not
used again. -/
def swap (E : ElemType α) (lhs rhs : Nat) (m : Mem α) : Mem α :=
  move_assign E rhs lhs
    (move_assign E lhs rhs
      { slot := m.write lhs ⟨(m.slot lhs).state, E.moved_from (m.slot lhs).val⟩,
        trace := m.trace })

/-- The loop of `swap_range`:
`for (; first1 != last1; ++first1, (void)++first2) mystl::swap(*first1, *first2);`
run for the `n = last1 - first1` steps it takes; returns the memory and the final
`first2`. -/
def swap_range_loop (E : ElemType α) : Nat → Nat → Nat → Mem α → Mem α × Nat
  | 0, _, first2, m => (m, first2)
  | n + 1, first1, first2, m => swap_range_loop E n (first1 + 1) (first2 + 1) (swap E first1 first2 m)

/-- Embeds `swap_range(first1, last1, first2)`. -/
def swap_range (E : ElemType α) (first1 last1 first2 : Nat) (m : Mem α) : Mem α × Nat :=
  swap_range_loop E (last1 - first1) first1 first2 m

/-! ## utils.h: comparison operators of pair

The component types come with total comparison operators, given as Boolean
functions.  `operator>` calls itself, so its evaluation is given fuel: one unit per
call, `none` when the fuel runs out before it returns. -/

/-- Embeds `struct pair`: the two data members. -/
structure pair (α β : Type) where
  first : α
  second : β
deriving DecidableEq, Repr

/-- The operators `<` and `==` of a component type. -/
structure Compare (α : Type) where
  lt : α → α → Bool
  eq : α → α → Bool

/-- Embeds `operator==` on pairs:
`lhs.first == rhs.first && lhs.second == rhs.second`. -/
def operator_eq (A : Compare α) (B : Compare β) (lhs rhs : pair α β) : Bool :=
  A.eq lhs.first rhs.first && B.eq lhs.second rhs.second

/-- Embeds `operator<` on pairs:
`lhs.first < rhs.first || (lhs.first == rhs.first && lhs.second < rhs.second)`. -/
def operator_lt (A : Compare α) (B : Compare β) (lhs rhs : pair α β) : Bool :=
  A.lt lhs.first rhs.first || (A.eq lhs.first rhs.first && B.lt lhs.second rhs.second)

/-- Embeds `operator!=` on pairs: `!(lhs == rhs)`. -/
def operator_ne (A : Compare α) (B : Compare β) (lhs rhs : pair α β) : Bool :=
  !operator_eq A B lhs rhs

/-- Embeds `operator>` on pairs: `return rhs > lhs;`, a call of `operator>` itself with
the arguments exchanged. -/
def operator_gt : Nat → pair α β → pair α β → Option Bool
  | 0, _, _ => none
  | fuel + 1, lhs, rhs => operator_gt fuel rhs lhs

/-- Embeds `operator<=` on pairs: `return !(rhs > lhs);`. -/
def operator_le (fuel : Nat) (lhs rhs : pair α β) : Option Bool :=
  (operator_gt fuel rhs lhs).map (fun b => !b)

/-- Embeds `operator>=` on pairs: `return !(lhs < rhs);`. -/
def operator_ge (A : Compare α) (B : Compare β) (lhs rhs : pair α β) : Bool :=
  !operator_lt A B lhs rhs

/-! ## iterator.h: advance

An iterator position and a distance are integers.  The loops are given fuel: one
unit per evaluation of the loop condition, `none` when the fuel runs out before the
loop ends. -/

/-- The loop `while (n--) ++i;`; returns the final `i`. -/
def advance_loop_forward : Nat → Int → Int → Option Int
  | 0, _, _ => none
  | fuel + 1, i, n => if n ≠ 0 then advance_loop_forward fuel (i + 1) (n - 1) else some i

/-- The loop `while (n++) --i;`; returns the final `i`. -/
def advance_loop_backward : Nat → Int → Int → Option Int
  | 0, _, _ => none
  | fuel + 1, i, n => if n ≠ 0 then advance_loop_backward fuel (i - 1) (n + 1) else some i

/-- Embeds `advance_dispatch(i, n, input_iterator_tag)`. -/
def advance_dispatch_input (fuel : Nat) (i n : Int) : Option Int :=
  advance_loop_forward fuel i n

/-- Embeds `advance_dispatch(i, n, bidirectional_iterator_tag)`:
`if (n >= 0) while (n--) ++i; else while (n++) --i;`. -/
def advance_dispatch_bidirectional (fuel : Nat) (i n : Int) : Option Int :=
  if n ≥ 0 then advance_loop_forward fuel i n else advance_loop_backward fuel i n

/-- Embeds `advance_dispatch(i, n, random_access_iterator_tag)`: `i += n;`. -/
def advance_dispatch_random_access (i n : Int) : Int := i + n

/-- The iterator category tags an iterator handed to `advance` can have
(`forward_iterator_tag` derives from `input_iterator_tag`, and so on). -/
inductive IteratorTag where
  | input
  | forward
  | bidirectional
  | random_access
deriving DecidableEq, Repr

/-- Embeds `advance(i, n)`: `advance_dispatch(i, n, iterator_category(i))`.  There is no
overload for `forward_iterator_tag`, which converts to its base `input_iterator_tag`. -/
def advance (tag : IteratorTag) (fuel : Nat) (i n : Int) : Option Int :=
  match tag with
  | IteratorTag.input => advance_dispatch_input fuel i n
  | IteratorTag.forward => advance_dispatch_input fuel i n
  | IteratorTag.bidirectional => advance_dispatch_bidirectional fuel i n
  | IteratorTag.random_access => some (advance_dispatch_random_access i n)

/-! ## Specification of a constructing loop body -/

/-- A loop body that behaves as a placement construction at `cur` throwing according
to `t`: it raises and changes nothing, or returns having logged the construction. -/
def ConstructsAt (t : Nat → Bool) (body : Nat → Nat → Mem α → Mem α × Outcome Unit) : Prop :=
  ∀ cur first m,
    (t cur = true → body cur first m = (m, Outcome.raised)) ∧
    (t cur = false → (body cur first m).2 = Outcome.returned () ∧
      (body cur first m).1.trace = m.trace ++ [Event.construct cur])

/-! ## Concrete element types and memories used to run the code -/

/-- Memory in which the slots at addresses `1 .. 4` are live objects holding `10 * address`
and every other slot is uninitialized storage holding `0`; nothing has happened yet. -/
def mem0 : Mem Nat :=
  { slot := fun q => if 1 ≤ q ∧ q ≤ 4 then ⟨SlotState.live, 10 * q⟩ else ⟨SlotState.uninitialized, 0⟩,
    trace := [] }

/-- Traits of a type none of whose special members is trivial. -/
def nontrivial : Traits := ⟨false, false, false, false⟩

/-- An element type of size 4 with no trivial special member, whose copy and move
constructors throw exactly at address `bad`. -/
def throwing_at (bad : Nat) : ElemType Nat :=
  { traits := nontrivial, sizeof := 4, copy_throws := fun p => p == bad,
    move_throws := fun p => p == bad, moved_from := fun _ => 0 }

/-- An element type of size 4 all of whose special members are trivial. -/
def trivial_type : ElemType Nat :=
  { traits := ⟨true, true, true, true⟩, sizeof := 4, copy_throws := fun _ => false,
    move_throws := fun _ => false, moved_from := fun x => x }

/-- As `throwing_at`, but trivially destructible. -/
def throwing_at_trivial_dtor (bad : Nat) : ElemType Nat :=
  { traits := ⟨true, false, false, false⟩, sizeof := 4, copy_throws := fun p => p == bad,
    move_throws := fun p => p == bad, moved_from := fun _ => 0 }

/-- An element type of `2^31` bytes, one more than `INT_MAX`, none of whose special
members is trivial and none of whose constructors throws. -/
def huge_type : ElemType Nat :=
  { traits := nontrivial, sizeof := 2147483648, copy_throws := fun _ => false,
    move_throws := fun _ => false, moved_from := fun x => x }

end mystl


namespace mystl

/-! ## Traces -/

theorem destroy_calls_append (xs ys : List Event) :
    destroy_calls (xs ++ ys) = destroy_calls xs ++ destroy_calls ys := by
  induction xs with
  | nil => rfl
  | cons e es ih => cases e <;> simp [destroy_calls, ih]

theorem constructions_append (xs ys : List Event) :
    constructions (xs ++ ys) = constructions xs ++ constructions ys := by
  induction xs with
  | nil => rfl
  | cons e es ih => cases e <;> simp [constructions, ih]

theorem dtor_runs_append (xs ys : List Event) :
    dtor_runs (xs ++ ys) = dtor_runs xs ++ dtor_runs ys := by
  induction xs with
  | nil => rfl
  | cons e es ih => cases e <;> simp [dtor_runs, ih]

theorem free_calls_append (xs ys : List Event) :
    free_calls (xs ++ ys) = free_calls xs ++ free_calls ys := by
  induction xs with
  | nil => rfl
  | cons e es ih => cases e <;> simp [free_calls, ih]

/-- The trace after a single-slot `destroy`. -/
theorem destroy_trace (E : ElemType α) (p : Nat) (m : Mem α) :
    (destroy E p m).trace = m.trace ++ [Event.destroy p] ++
      (if E.traits.trivially_destructible = false ∧ p ≠ 0 then [Event.dtor p] else []) := by
  unfold destroy destroy_one_true_type destroy_one_false_type Mem.log
  cases E.traits.trivially_destructible <;> by_cases hp : p = 0 <;> simp [hp]

theorem destroy_calls_destroy (E : ElemType α) (p : Nat) (m : Mem α) :
    destroy_calls (destroy E p m).trace = destroy_calls m.trace ++ [p] := by
  rw [destroy_trace]
  split <;> simp [destroy_calls_append, destroy_calls]

theorem constructions_destroy (E : ElemType α) (p : Nat) (m : Mem α) :
    constructions (destroy E p m).trace = constructions m.trace := by
  rw [destroy_trace]
  split <;> simp [constructions_append, constructions]

/-- The forward rollback loop calls `destroy` on the `n` slots from `first` on, in
increasing order. -/
theorem destroy_calls_destroy_each (E : ElemType α) (n first : Nat) (m : Mem α) :
    destroy_calls (destroy_each E n first m).trace = destroy_calls m.trace ++ List.range' first n := by
  induction n generalizing first m with
  | zero => simp [destroy_each]
  | succ n ih => simp [destroy_each, ih, destroy_calls_destroy, List.range'_succ]

theorem constructions_destroy_each (E : ElemType α) (n first : Nat) (m : Mem α) :
    constructions (destroy_each E n first m).trace = constructions m.trace := by
  induction n generalizing first m with
  | zero => simp [destroy_each]
  | succ n ih => simp [destroy_each, ih, constructions_destroy]

theorem dtor_runs_destroy (E : ElemType α) (p : Nat) (m : Mem α) :
    dtor_runs (destroy E p m).trace = dtor_runs m.trace ++
      (if E.traits.trivially_destructible = false ∧ p ≠ 0 then [p] else []) := by
  rw [destroy_trace]
  split <;> simp [dtor_runs_append, dtor_runs]

/-- For an element type that is not trivially destructible, the forward rollback loop
runs the destructor on the `n` slots from a non-null `first` on, in increasing order. -/
theorem dtor_runs_destroy_each (E : ElemType α) (n first : Nat) (m : Mem α)
    (hd : E.traits.trivially_destructible = false) (hfirst : 0 < first) :
    dtor_runs (destroy_each E n first m).trace = dtor_runs m.trace ++ List.range' first n := by
  induction n generalizing first m with
  | zero => simp [destroy_each]
  | succ n ih =>
    have hne : first ≠ 0 := by omega
    simp [destroy_each, ih (first + 1) _ (by omega), dtor_runs_destroy, hd, hne,
      List.range'_succ]

theorem dtor_runs_map_construct (l : List Nat) :
    dtor_runs (l.map Event.construct) = [] := by
  induction l with
  | nil => rfl
  | cons a l ih => simpa [dtor_runs] using ih

/-! ## The protected construction loop -/

theorem constructsAt_construct (E : ElemType α) (src : Nat → Mem α → α) :
    ConstructsAt E.copy_throws (fun cur first m => construct E cur (src first m) m) := by
  intro cur first m
  constructor <;> intro h <;> simp [construct, h]

theorem constructsAt_construct_args (E : ElemType α) :
    ConstructsAt E.move_throws (fun cur first m => construct_args E cur first m) := by
  intro cur first m
  constructor <;> intro h <;> simp [construct_args, h]

/-- One successful iteration of the protected loop. -/
theorem try_loop_step (body : Nat → Nat → Mem α → Mem α × Outcome Unit) (n first cur : Nat)
    (m m1 : Mem α) (h : body cur first m = (m1, Outcome.returned ())) :
    try_loop body (n + 1) first cur m = try_loop body n (first + 1) (cur + 1) m1 := by
  rw [try_loop, h]

/-- If no body among the `n` raises, the loop runs to completion. -/
theorem try_loop_ok {t : Nat → Bool} {body : Nat → Nat → Mem α → Mem α × Outcome Unit}
    (hb : ConstructsAt t body) (n first cur : Nat) (m : Mem α)
    (hok : ∀ i, i < n → t (cur + i) = false) :
    (try_loop body n first cur m).2 = (cur + n, false) ∧
    (try_loop body n first cur m).1.trace
      = m.trace ++ (List.range' cur n).map Event.construct := by
  induction n generalizing first cur m with
  | zero => simp [try_loop]
  | succ n ih =>
    have h0 := ((hb cur first m).2 (by simpa using hok 0 (Nat.succ_pos n)))
    have hstep : try_loop body (n + 1) first cur m
        = try_loop body n (first + 1) (cur + 1) (body cur first m).1 := by
      rw [try_loop]
      rcases hbody : body cur first m with ⟨m1, o⟩
      rw [hbody] at h0
      cases o with
      | returned r => rfl
      | raised => simp at h0
    have ih1 := ih (first + 1) (cur + 1) (body cur first m).1 (fun i hi => by
      have := hok (i + 1) (Nat.succ_lt_succ hi)
      rwa [show cur + 1 + i = cur + (i + 1) by omega])
    rw [hstep, ih1.1, ih1.2, h0.2]
    constructor
    · simp; omega
    · simp [List.range'_succ]

/-- If the body at `cur + k` is the first to raise, the loop stops there, with exactly
the `k` slots before it constructed. -/
theorem try_loop_fail {t : Nat → Bool} {body : Nat → Nat → Mem α → Mem α × Outcome Unit}
    (hb : ConstructsAt t body) (k n first cur : Nat) (m : Mem α) (hk : k < n)
    (hok : ∀ i, i < k → t (cur + i) = false) (hbad : t (cur + k) = true) :
    (try_loop body n first cur m).2 = (cur + k, true) ∧
    (try_loop body n first cur m).1.trace
      = m.trace ++ (List.range' cur k).map Event.construct := by
  induction k generalizing n first cur m with
  | zero =>
    obtain ⟨n, rfl⟩ : ∃ j, n = j + 1 := ⟨n - 1, by omega⟩
    have h0 := (hb cur first m).1 (by simpa using hbad)
    rw [try_loop, h0]
    simp
  | succ k ih =>
    obtain ⟨n, rfl⟩ : ∃ j, n = j + 1 := ⟨n - 1, by omega⟩
    have h0 := ((hb cur first m).2 (by simpa using hok 0 (Nat.succ_pos k)))
    have hstep : try_loop body (n + 1) first cur m
        = try_loop body n (first + 1) (cur + 1) (body cur first m).1 := by
      rw [try_loop]
      rcases hbody : body cur first m with ⟨m1, o⟩
      rw [hbody] at h0
      cases o with
      | returned r => rfl
      | raised => simp at h0
    have ih1 := ih n (first + 1) (cur + 1) (body cur first m).1 (by omega) (fun i hi => by
      have := hok (i + 1) (Nat.succ_lt_succ hi)
      rwa [show cur + 1 + i = cur + (i + 1) by omega])
      (by rwa [show cur + 1 + k = cur + (k + 1) by omega])
    rw [hstep, ih1.1, ih1.2, h0.2]
    constructor
    · simp; omega
    · simp [List.range'_succ]

theorem destroy_calls_map_construct (l : List Nat) :
    destroy_calls (l.map Event.construct) = [] := by
  induction l with
  | nil => rfl
  | cons a l ih => simpa [destroy_calls] using ih

theorem constructions_map_construct (l : List Nat) :
    constructions (l.map Event.construct) = l := by
  induction l with
  | nil => rfl
  | cons a l ih => simpa [constructions] using ih


/-! ## Rollback and return value of the six range operations -/

/-- C1: run on a source range of length 3 whose third construction (destination slot
index 2, address 12) throws, the handler of `uninitialized_copy` calls `destroy` on
address 12 (never constructed) and then on address 11, and never on address 10: slot
index 0 stays live, the rollback is not the set of slots `[0, 2)`, and the call returns
`result` normally. -/
theorem uninitialized_copy_rollback_is_shifted :
    (uninitialized_copy (throwing_at 12) 1 4 10 mem0).1.trace
      = [Event.construct 10, Event.construct 11,
         Event.destroy 12, Event.dtor 12, Event.destroy 11, Event.dtor 11] ∧
    destroy_calls (uninitialized_copy (throwing_at 12) 1 4 10 mem0).1.trace ≠ List.range' 10 2 ∧
    ((uninitialized_copy (throwing_at 12) 1 4 10 mem0).1.slot 10).state = SlotState.live ∧
    ((uninitialized_copy (throwing_at 12) 1 4 10 mem0).1.slot 12).state = SlotState.destroyed ∧
    (uninitialized_copy (throwing_at 12) 1 4 10 mem0).2 = Outcome.returned 10 := by
  decide

/-- C2: with a construction that throws at destination slot index 1 (address 11),
`uninitialized_copy`, `uninitialized_copy_n`, `uninitialized_fill`, `uninitialized_fill_n`
and `uninitialized_move` all return normally; only `uninitialized_move_n` raises. -/
theorem five_operations_swallow_the_failure :
    (uninitialized_copy (throwing_at 11) 1 3 10 mem0).2 = Outcome.returned 10 ∧
    (uninitialized_copy_n nontrivial (throwing_at 11) 1 2 10 mem0).2 = Outcome.returned 10 ∧
    (uninitialized_fill (throwing_at 11) 10 12 7 mem0).2 = Outcome.returned () ∧
    (uninitialized_fill_n (throwing_at 11) 10 2 7 mem0).2 = Outcome.returned 11 ∧
    (uninitialized_move nontrivial (throwing_at 11) 1 3 10 mem0).2 = Outcome.returned 11 ∧
    (uninitialized_move_n nontrivial (throwing_at 11) 1 2 10 mem0).2 = Outcome.raised := by
  decide

/-- C3, as stated, fails: for a trivially destructible element type whose move
construction throws at destination slot index 1, the handler of `uninitialized_move`
calls the range `destroy`, which skips its loop: no `destroy` reaches slot index 0 and
no destructor runs, although one construction had succeeded. -/
theorem uninitialized_move_trivial_dtor_destroys_nothing :
    destroy_calls (uninitialized_move nontrivial (throwing_at_trivial_dtor 11) 1 3 10 mem0).1.trace = [] ∧
    dtor_runs (uninitialized_move nontrivial (throwing_at_trivial_dtor 11) 1 3 10 mem0).1.trace = [] ∧
    destroy_calls (uninitialized_move nontrivial (throwing_at_trivial_dtor 11) 1 3 10 mem0).1.trace
      ≠ List.range' 10 1 := by
  decide

/-- What the failing protected loop of `uninitialized_fill` leaves: the memory after
the `k` successful constructions, rolled back slot by slot from `dest`. -/
theorem fill_failure_state (E : ElemType α) (dest L k : Nat) (v : α) (m : Mem α) (hk : k < L)
    (hok : ∀ i, i < k → E.copy_throws (dest + i) = false)
    (hbad : E.copy_throws (dest + k) = true)
    (hc : E.traits.trivially_copy_assignable = false) :
    ∃ m1 : Mem α, m1.trace = m.trace ++ (List.range' dest k).map Event.construct ∧
      (uninitialized_fill E dest (dest + L) v m).1 = destroy_each E k dest m1 ∧
      (uninitialized_fill_n E dest L v m).1 = destroy_each E k dest m1 := by
  have hfill := try_loop_fail (constructsAt_construct E (fun _ _ => v)) k L dest dest m hk
    hok hbad
  simp only [uninitialized_fill, uninitialized_fill_n, hc, unchecked_uninit_fill_false_type,
    unchecked_uninit_fill_n_false_type, Nat.add_sub_cancel_left]
  rcases hr : try_loop (fun cur _ m => construct E cur v m) L dest dest m with ⟨m1, cur, b⟩
  rw [hr] at hfill
  obtain ⟨h1, h2⟩ := hfill
  simp only [Prod.mk.injEq] at h1
  obtain ⟨rfl, rfl⟩ := h1
  exact ⟨m1, h2, by simp, by simp⟩

/-- What the failing protected loop of `uninitialized_move_n` and `uninitialized_move`
leaves: the memory after the `k` successful constructions, rolled back slot by slot
from `dest`, respectively by the range `destroy`. -/
theorem move_failure_state (S : Traits) (E : ElemType α) (first dest L k : Nat) (m : Mem α)
    (hk : k < L)
    (hok : ∀ i, i < k → E.move_throws (dest + i) = false)
    (hbad : E.move_throws (dest + k) = true)
    (hm : S.trivially_move_assignable = false) :
    ∃ m1 : Mem α, m1.trace = m.trace ++ (List.range' dest k).map Event.construct ∧
      (uninitialized_move_n S E first L dest m).1 = destroy_each E k dest m1 ∧
      (uninitialized_move S E first (first + L) dest m).1 = destroy_range E dest (dest + k) m1 := by
  have hmove := try_loop_fail (constructsAt_construct_args E) k L first dest m hk hok hbad
  simp only [uninitialized_move_n, uninitialized_move, hm, unchecked_uninit_move_n_false_type,
    unchecked_uninit_move_false_type, Nat.add_sub_cancel_left]
  rcases hr : try_loop (fun cur first m => construct_args E cur first m) L first dest m
    with ⟨m1, cur, b⟩
  rw [hr] at hmove
  obtain ⟨h1, h2⟩ := hmove
  simp only [Prod.mk.injEq] at h1
  obtain ⟨rfl, rfl⟩ := h1
  exact ⟨m1, h2, by simp, by simp⟩

/-- C3, amended: on the non-trivial path, when the construction of destination slot
`k < L` is the first to throw, `uninitialized_fill`, `uninitialized_fill_n` and
`uninitialized_move_n` perform exactly `k` single-slot `destroy` calls, on the slots
`dest, dest + 1, ..., dest + k - 1` in this order; so does `uninitialized_move` when
the element type is not trivially destructible.  For such an element type and a
non-null `dest`, the destructor runs in all four on exactly these slots, in this
order, each once. -/
theorem rollback_destroys_constructed_slots (S : Traits) (E : ElemType α)
    (first dest L k : Nat) (v : α) (m : Mem α) (hk : k < L)
    (hcopy_ok : ∀ i, i < k → E.copy_throws (dest + i) = false)
    (hcopy_bad : E.copy_throws (dest + k) = true)
    (hmove_ok : ∀ i, i < k → E.move_throws (dest + i) = false)
    (hmove_bad : E.move_throws (dest + k) = true)
    (hc : E.traits.trivially_copy_assignable = false)
    (hm : S.trivially_move_assignable = false) :
    destroy_calls (uninitialized_fill E dest (dest + L) v m).1.trace
      = destroy_calls m.trace ++ List.range' dest k ∧
    destroy_calls (uninitialized_fill_n E dest L v m).1.trace
      = destroy_calls m.trace ++ List.range' dest k ∧
    destroy_calls (uninitialized_move_n S E first L dest m).1.trace
      = destroy_calls m.trace ++ List.range' dest k ∧
    (E.traits.trivially_destructible = false →
      destroy_calls (uninitialized_move S E first (first + L) dest m).1.trace
        = destroy_calls m.trace ++ List.range' dest k) ∧
    (E.traits.trivially_destructible = false → 0 < dest →
      dtor_runs (uninitialized_fill E dest (dest + L) v m).1.trace
        = dtor_runs m.trace ++ List.range' dest k ∧
      dtor_runs (uninitialized_fill_n E dest L v m).1.trace
        = dtor_runs m.trace ++ List.range' dest k ∧
      dtor_runs (uninitialized_move_n S E first L dest m).1.trace
        = dtor_runs m.trace ++ List.range' dest k ∧
      dtor_runs (uninitialized_move S E first (first + L) dest m).1.trace
        = dtor_runs m.trace ++ List.range' dest k) := by
  obtain ⟨mf, hf, hfill, hfill_n⟩ :=
    fill_failure_state E dest L k v m hk hcopy_ok hcopy_bad hc
  obtain ⟨mm, hmm, hmove_n, hmove⟩ :=
    move_failure_state S E first dest L k m hk hmove_ok hmove_bad hm
  rw [hfill, hfill_n, hmove_n, hmove]
  refine ⟨?_, ?_, ?_, ?_, ?_⟩
  · simp [destroy_calls_destroy_each, hf, destroy_calls_append, destroy_calls_map_construct]
  · simp [destroy_calls_destroy_each, hf, destroy_calls_append, destroy_calls_map_construct]
  · simp [destroy_calls_destroy_each, hmm, destroy_calls_append, destroy_calls_map_construct]
  · intro hd
    simp [destroy_range, hd, destroy_cat_false_type, destroy_calls_destroy_each, hmm,
      destroy_calls_append, destroy_calls_map_construct]
  · intro hd hdest
    simp [destroy_range, hd, destroy_cat_false_type, dtor_runs_destroy_each E _ _ _ hd hdest,
      hf, hmm, dtor_runs_append, dtor_runs_map_construct]

/-- Witness for C3: length 2, second construction throws, element type not trivially
destructible. -/
theorem rollback_destroys_constructed_slots_witness :
    destroy_calls (uninitialized_fill (throwing_at 11) 10 (10 + 2) 7 mem0).1.trace
      = destroy_calls mem0.trace ++ List.range' 10 1 ∧
    destroy_calls (uninitialized_fill_n (throwing_at 11) 10 2 7 mem0).1.trace
      = destroy_calls mem0.trace ++ List.range' 10 1 ∧
    destroy_calls (uninitialized_move_n nontrivial (throwing_at 11) 1 2 10 mem0).1.trace
      = destroy_calls mem0.trace ++ List.range' 10 1 ∧
    destroy_calls (uninitialized_move nontrivial (throwing_at 11) 1 (1 + 2) 10 mem0).1.trace
      = destroy_calls mem0.trace ++ List.range' 10 1 ∧
    dtor_runs (uninitialized_move nontrivial (throwing_at 11) 1 (1 + 2) 10 mem0).1.trace
      = dtor_runs mem0.trace ++ List.range' 10 1 :=
  ⟨(rollback_destroys_constructed_slots nontrivial (throwing_at 11) 1 10 2 1 7 mem0
      (by decide) (by decide) (by decide) (by decide) (by decide) (by decide) (by decide)).1,
   (rollback_destroys_constructed_slots nontrivial (throwing_at 11) 1 10 2 1 7 mem0
      (by decide) (by decide) (by decide) (by decide) (by decide) (by decide) (by decide)).2.1,
   (rollback_destroys_constructed_slots nontrivial (throwing_at 11) 1 10 2 1 7 mem0
      (by decide) (by decide) (by decide) (by decide) (by decide) (by decide) (by decide)).2.2.1,
   (rollback_destroys_constructed_slots nontrivial (throwing_at 11) 1 10 2 1 7 mem0
      (by decide) (by decide) (by decide) (by decide) (by decide) (by decide) (by decide)).2.2.2.1
      rfl,
   ((rollback_destroys_constructed_slots nontrivial (throwing_at 11) 1 10 2 1 7 mem0
      (by decide) (by decide) (by decide) (by decide) (by decide) (by decide) (by decide)).2.2.2.2
      rfl (by decide)).2.2.2⟩

/-- C4: on the non-trivial path, when none of the `L` constructions throws,
`uninitialized_copy`, `uninitialized_copy_n`, `uninitialized_fill_n`,
`uninitialized_move` and `uninitialized_move_n` return `dest + L`, having constructed
exactly the slots `dest, ..., dest + L - 1`; over an empty range they return `dest` and
leave memory and trace as they were. -/
theorem success_returns_one_past_last (S : Traits) (E : ElemType α)
    (first dest L : Nat) (v : α) (m : Mem α)
    (hcopy : ∀ i, i < L → E.copy_throws (dest + i) = false)
    (hmove : ∀ i, i < L → E.move_throws (dest + i) = false)
    (hc : E.traits.trivially_copy_assignable = false)
    (hsc : S.trivially_copy_assignable = false)
    (hsm : S.trivially_move_assignable = false) :
    ((uninitialized_copy E first (first + L) dest m).2 = Outcome.returned (dest + L) ∧
      constructions (uninitialized_copy E first (first + L) dest m).1.trace
        = constructions m.trace ++ List.range' dest L) ∧
    ((uninitialized_copy_n S E first L dest m).2 = Outcome.returned (dest + L) ∧
      constructions (uninitialized_copy_n S E first L dest m).1.trace
        = constructions m.trace ++ List.range' dest L) ∧
    ((uninitialized_fill_n E dest L v m).2 = Outcome.returned (dest + L) ∧
      constructions (uninitialized_fill_n E dest L v m).1.trace
        = constructions m.trace ++ List.range' dest L) ∧
    ((uninitialized_move S E first (first + L) dest m).2 = Outcome.returned (dest + L) ∧
      constructions (uninitialized_move S E first (first + L) dest m).1.trace
        = constructions m.trace ++ List.range' dest L) ∧
    ((uninitialized_move_n S E first L dest m).2 = Outcome.returned (dest + L) ∧
      constructions (uninitialized_move_n S E first L dest m).1.trace
        = constructions m.trace ++ List.range' dest L) ∧
    (uninitialized_copy E first first dest m = (m, Outcome.returned dest) ∧
      uninitialized_copy_n S E first 0 dest m = (m, Outcome.returned dest) ∧
      uninitialized_fill_n E dest 0 v m = (m, Outcome.returned dest) ∧
      uninitialized_move S E first first dest m = (m, Outcome.returned dest) ∧
      uninitialized_move_n S E first 0 dest m = (m, Outcome.returned dest)) := by
  have hcp := try_loop_ok (constructsAt_construct E (fun first m => (m.slot first).val))
    L first dest m hcopy
  have hfl := try_loop_ok (constructsAt_construct E (fun _ _ => v)) L dest dest m hcopy
  have hmv := try_loop_ok (constructsAt_construct_args E) L first dest m hmove
  refine ⟨?_, ?_, ?_, ?_, ?_, ?_⟩
  · simp only [uninitialized_copy, hc, unchecked_uninit_copy_false_type, Nat.add_sub_cancel_left]
    rcases hr : try_loop (fun cur first m => construct E cur (m.slot first).val m) L first dest m
      with ⟨m1, cur, b⟩
    rw [hr] at hcp
    obtain ⟨h1, h2⟩ := hcp
    simp only [Prod.mk.injEq] at h1
    obtain ⟨rfl, rfl⟩ := h1
    dsimp only at h2
    simp [h2, constructions_append, constructions_map_construct]
  · simp only [uninitialized_copy_n, hsc, unchecked_uninit_copy_n_false_type]
    rcases hr : try_loop (fun cur first m => construct E cur (m.slot first).val m) L first dest m
      with ⟨m1, cur, b⟩
    rw [hr] at hcp
    obtain ⟨h1, h2⟩ := hcp
    simp only [Prod.mk.injEq] at h1
    obtain ⟨rfl, rfl⟩ := h1
    dsimp only at h2
    simp [h2, constructions_append, constructions_map_construct]
  · simp only [uninitialized_fill_n, hc, unchecked_uninit_fill_n_false_type]
    rcases hr : try_loop (fun cur _ m => construct E cur v m) L dest dest m with ⟨m1, cur, b⟩
    rw [hr] at hfl
    obtain ⟨h1, h2⟩ := hfl
    simp only [Prod.mk.injEq] at h1
    obtain ⟨rfl, rfl⟩ := h1
    dsimp only at h2
    simp [h2, constructions_append, constructions_map_construct]
  · simp only [uninitialized_move, hsm, unchecked_uninit_move_false_type, Nat.add_sub_cancel_left]
    rcases hr : try_loop (fun cur first m => construct_args E cur first m) L first dest m
      with ⟨m1, cur, b⟩
    rw [hr] at hmv
    obtain ⟨h1, h2⟩ := hmv
    simp only [Prod.mk.injEq] at h1
    obtain ⟨rfl, rfl⟩ := h1
    dsimp only at h2
    simp [h2, constructions_append, constructions_map_construct]
  · simp only [uninitialized_move_n, hsm, unchecked_uninit_move_n_false_type]
    rcases hr : try_loop (fun cur first m => construct_args E cur first m) L first dest m
      with ⟨m1, cur, b⟩
    rw [hr] at hmv
    obtain ⟨h1, h2⟩ := hmv
    simp only [Prod.mk.injEq] at h1
    obtain ⟨rfl, rfl⟩ := h1
    dsimp only at h2
    simp [h2, constructions_append, constructions_map_construct]
  · simp [uninitialized_copy, uninitialized_copy_n, uninitialized_fill_n, uninitialized_move,
      uninitialized_move_n, hc, hsc, hsm, unchecked_uninit_copy_false_type,
      unchecked_uninit_copy_n_false_type, unchecked_uninit_fill_n_false_type,
      unchecked_uninit_move_false_type, unchecked_uninit_move_n_false_type, try_loop]

/-- Slots after the copy loop ran to completion over disjoint source and destination. -/
theorem copy_loop_slot (E : ElemType α) (n first cur : Nat) (m : Mem α)
    (hok : ∀ i, i < n → E.copy_throws (cur + i) = false)
    (hdisj : ∀ i j, i < n → j < n → first + i ≠ cur + j) (q : Nat) :
    (try_loop (fun cur first m => construct E cur (m.slot first).val m) n first cur m).1.slot q
      = if cur ≤ q ∧ q < cur + n then ⟨SlotState.live, (m.slot (first + (q - cur))).val⟩
        else m.slot q := by
  induction n generalizing first cur m with
  | zero =>
    rw [if_neg (by omega)]
    rfl
  | succ n ih =>
    have h0 : E.copy_throws cur = false := by simpa using hok 0 (Nat.succ_pos n)
    have hb : (fun cur first (m : Mem α) => construct E cur (m.slot first).val m) cur first m
        = ({ slot := m.write cur ⟨SlotState.live, (m.slot first).val⟩,
             trace := m.trace ++ [Event.construct cur] }, Outcome.returned ()) := by
      simp [construct, h0]
    rw [try_loop_step _ n first cur m _ hb, ih]
    · simp only [Mem.write]
      by_cases hq : q = cur
      · subst hq
        simp
      · by_cases hin : cur + 1 ≤ q ∧ q < cur + 1 + n
        · have hin2 : cur ≤ q ∧ q < cur + (n + 1) := by omega
          have hne : first + 1 + (q - (cur + 1)) ≠ cur := by
            have := hdisj (1 + (q - (cur + 1))) 0 (by omega) (by omega)
            omega
          rw [if_pos hin, if_pos hin2, if_neg hne]
          congr 3
          omega
        · have hin2 : ¬ (cur ≤ q ∧ q < cur + (n + 1)) := by omega
          rw [if_neg hin, if_neg hin2, if_neg hq]
    · intro i hi
      have := hok (i + 1) (Nat.succ_lt_succ hi)
      rwa [show cur + 1 + i = cur + (i + 1) by omega]
    · intro i j hi hj
      have := hdisj (i + 1) (j + 1) (by omega) (by omega)
      omega

/-- Slots after the fill loop ran to completion. -/
theorem fill_loop_slot (E : ElemType α) (n first cur : Nat) (v : α) (m : Mem α)
    (hok : ∀ i, i < n → E.copy_throws (cur + i) = false) (q : Nat) :
    (try_loop (fun cur _ m => construct E cur v m) n first cur m).1.slot q
      = if cur ≤ q ∧ q < cur + n then ⟨SlotState.live, v⟩ else m.slot q := by
  induction n generalizing first cur m with
  | zero =>
    rw [if_neg (by omega)]
    rfl
  | succ n ih =>
    have h0 : E.copy_throws cur = false := by simpa using hok 0 (Nat.succ_pos n)
    have hb : (fun cur (_ : Nat) (m : Mem α) => construct E cur v m) cur first m
        = ({ slot := m.write cur ⟨SlotState.live, v⟩,
             trace := m.trace ++ [Event.construct cur] }, Outcome.returned ()) := by
      simp [construct, h0]
    rw [try_loop_step _ n first cur m _ hb, ih]
    · simp only [Mem.write]
      by_cases hq : q = cur
      · subst hq
        simp
      · by_cases hin : cur + 1 ≤ q ∧ q < cur + 1 + n
        · have hin2 : cur ≤ q ∧ q < cur + (n + 1) := by omega
          rw [if_pos hin, if_pos hin2]
        · have hin2 : ¬ (cur ≤ q ∧ q < cur + (n + 1)) := by omega
          rw [if_neg hin, if_neg hin2, if_neg hq]
    · intro i hi
      have := hok (i + 1) (Nat.succ_lt_succ hi)
      rwa [show cur + 1 + i = cur + (i + 1) by omega]

/-- C5: on the non-trivial path, copying `L` live source elements into `L`
uninitialized destination slots without a throwing construction leaves destination
slot `i` live with the value of source element `i`, the source elements as they were,
and every slot outside the destination range as it was. -/
theorem uninitialized_copy_success (E : ElemType α) (first L result : Nat) (m : Mem α)
    (hnt : E.traits.trivially_copy_assignable = false)
    (hsrc : ∀ i, i < L → (m.slot (first + i)).state = SlotState.live)
    (hdst : ∀ i, i < L → (m.slot (result + i)).state = SlotState.uninitialized)
    (hok : ∀ i, i < L → E.copy_throws (result + i) = false) :
    (∀ i, i < L → (uninitialized_copy E first (first + L) result m).1.slot (result + i)
        = ⟨SlotState.live, (m.slot (first + i)).val⟩) ∧
    (∀ i, i < L → (uninitialized_copy E first (first + L) result m).1.slot (first + i)
        = m.slot (first + i)) ∧
    (∀ q, q < result ∨ result + L ≤ q →
      (uninitialized_copy E first (first + L) result m).1.slot q = m.slot q) := by
  have hdisj : ∀ i j, i < L → j < L → first + i ≠ result + j := by
    intro i j hi hj heq
    have h1 := hsrc i hi
    have h2 := hdst j hj
    rw [heq, h2] at h1
    exact absurd h1 (by decide)
  have hcp := try_loop_ok (constructsAt_construct E (fun first m => (m.slot first).val))
    L first result m hok
  have hslot := copy_loop_slot E L first result m hok hdisj
  have hmem : (uninitialized_copy E first (first + L) result m).1
      = (try_loop (fun cur first m => construct E cur (m.slot first).val m) L first result m).1 := by
    simp only [uninitialized_copy, hnt, unchecked_uninit_copy_false_type, Nat.add_sub_cancel_left]
    rcases hr : try_loop (fun cur first m => construct E cur (m.slot first).val m) L first result m
      with ⟨m1, cur, b⟩
    rw [hr] at hcp
    obtain ⟨h1, -⟩ := hcp
    simp only [Prod.mk.injEq] at h1
    obtain ⟨rfl, rfl⟩ := h1
    rfl
  rw [hmem]
  refine ⟨?_, ?_, ?_⟩
  · intro i hi
    rw [hslot, if_pos (by omega)]
    congr 3
    omega
  · intro i hi
    rw [hslot, if_neg]
    intro hin
    exact hdisj i (first + i - result) hi (by omega) (by omega)
  · intro q hq
    rw [hslot, if_neg (by omega)]

/-- Witness for C5: two live source elements at addresses 1 and 2 copied into the
uninitialized slots at addresses 10 and 11. -/
theorem uninitialized_copy_success_witness :
    (uninitialized_copy (throwing_at 0) 1 (1 + 2) 10 mem0).1.slot (10 + 1)
      = ⟨SlotState.live, (mem0.slot (1 + 1)).val⟩ ∧
    (uninitialized_copy (throwing_at 0) 1 (1 + 2) 10 mem0).1.slot (1 + 1) = mem0.slot (1 + 1) ∧
    (uninitialized_copy (throwing_at 0) 1 (1 + 2) 10 mem0).1.slot 12 = mem0.slot 12 :=
  ⟨(uninitialized_copy_success (throwing_at 0) 1 2 10 mem0 (by decide) (by decide) (by decide)
      (by decide)).1 1 (by decide),
   (uninitialized_copy_success (throwing_at 0) 1 2 10 mem0 (by decide) (by decide) (by decide)
      (by decide)).2.1 1 (by decide),
   (uninitialized_copy_success (throwing_at 0) 1 2 10 mem0 (by decide) (by decide) (by decide)
      (by decide)).2.2 12 (by decide)⟩

/-- Witness for C4: ranges of length 2, no construction throws. -/
theorem success_returns_one_past_last_witness :
    (uninitialized_copy (throwing_at 0) 1 (1 + 2) 10 mem0).2 = Outcome.returned (10 + 2) ∧
    (uninitialized_move_n nontrivial (throwing_at 0) 1 2 10 mem0).2 = Outcome.returned (10 + 2) :=
  ⟨(success_returns_one_past_last nontrivial (throwing_at 0) 1 10 2 7 mem0 (by decide) (by decide)
      (by decide) (by decide) (by decide)).1.1,
   (success_returns_one_past_last nontrivial (throwing_at 0) 1 10 2 7 mem0 (by decide) (by decide)
      (by decide) (by decide) (by decide)).2.2.2.2.1.1⟩


/-- C6: for every `n` and value `v`, `uninitialized_fill_n(dest, n, v)` on the trivial
(bulk `fill_n`) path leaves `v` in each of the `n` slots from `dest` and returns
`dest + n`; the stored values at every address and the returned position are those
the non-trivial construct loop produces for the same `n` and `v` when no construction
throws. -/
theorem uninitialized_fill_n_trivial_path_agrees (E1 E2 : ElemType α) (dest n : Nat) (v : α)
    (m : Mem α)
    (h1 : E1.traits.trivially_copy_assignable = true)
    (h2 : E2.traits.trivially_copy_assignable = false)
    (hok : ∀ i, i < n → E2.copy_throws (dest + i) = false) :
    (∀ i, i < n → ((uninitialized_fill_n E1 dest n v m).1.slot (dest + i)).val = v) ∧
    (uninitialized_fill_n E1 dest n v m).2 = Outcome.returned (dest + n) ∧
    (∀ q, ((uninitialized_fill_n E1 dest n v m).1.slot q).val
        = ((uninitialized_fill_n E2 dest n v m).1.slot q).val) ∧
    (uninitialized_fill_n E1 dest n v m).2 = (uninitialized_fill_n E2 dest n v m).2 := by
  have hfl := try_loop_ok (constructsAt_construct E2 (fun _ _ => v)) n dest dest m hok
  have hslot := fill_loop_slot E2 n dest dest v m hok
  have hE2 : uninitialized_fill_n E2 dest n v m
      = ((try_loop (fun cur _ m => construct E2 cur v m) n dest dest m).1,
          Outcome.returned (dest + n)) := by
    simp only [uninitialized_fill_n, h2, unchecked_uninit_fill_n_false_type]
    rcases hr : try_loop (fun cur _ m => construct E2 cur v m) n dest dest m with ⟨m1, cur, b⟩
    rw [hr] at hfl
    obtain ⟨h3, -⟩ := hfl
    simp only [Prod.mk.injEq] at h3
    obtain ⟨rfl, rfl⟩ := h3
    rfl
  have hE1 : uninitialized_fill_n E1 dest n v m
      = (block_write m dest n (fun _ => v), Outcome.returned (dest + n)) := by
    simp [uninitialized_fill_n, h1, unchecked_uninit_fill_n_true_type, fill_n]
  rw [hE1, hE2]
  refine ⟨?_, rfl, ?_, rfl⟩
  · intro i hi
    simp [block_write, hi]
  · intro q
    simp only [hslot, block_write]
    by_cases hq : dest ≤ q ∧ q < dest + n
    · rw [if_pos hq, if_pos hq]
    · rw [if_neg hq, if_neg hq]

/-- Witness for C6: three slots filled with the value 7. -/
theorem uninitialized_fill_n_trivial_path_agrees_witness :
    ((uninitialized_fill_n trivial_type 10 3 7 mem0).1.slot (10 + 2)).val = 7 ∧
    (uninitialized_fill_n trivial_type 10 3 7 mem0).2 = Outcome.returned (10 + 3) ∧
    ((uninitialized_fill_n trivial_type 10 3 7 mem0).1.slot 11).val
      = ((uninitialized_fill_n (throwing_at 0) 10 3 7 mem0).1.slot 11).val ∧
    (uninitialized_fill_n trivial_type 10 3 7 mem0).2
      = (uninitialized_fill_n (throwing_at 0) 10 3 7 mem0).2 :=
  ⟨(uninitialized_fill_n_trivial_path_agrees trivial_type (throwing_at 0) 10 3 7 mem0
      (by decide) (by decide) (by decide)).1 2 (by decide),
   (uninitialized_fill_n_trivial_path_agrees trivial_type (throwing_at 0) 10 3 7 mem0
      (by decide) (by decide) (by decide)).2.1,
   (uninitialized_fill_n_trivial_path_agrees trivial_type (throwing_at 0) 10 3 7 mem0
      (by decide) (by decide) (by decide)).2.2.1 11,
   (uninitialized_fill_n_trivial_path_agrees trivial_type (throwing_at 0) 10 3 7 mem0
      (by decide) (by decide) (by decide)).2.2.2⟩

/-! ## temporary_buffer -/

/-- Embeds `uninitialized_fill_n` returns normally on both paths, whatever the constructions do. -/
theorem uninitialized_fill_n_returns (E : ElemType α) (first n : Nat) (v : α) (m : Mem α) :
    ∃ r, (uninitialized_fill_n E first n v m).2 = Outcome.returned r := by
  unfold uninitialized_fill_n
  split
  · exact ⟨_, rfl⟩
  · unfold unchecked_uninit_fill_n_false_type
    rcases try_loop (fun cur _ m => construct E cur v m) n first first m with ⟨m1, cur, b⟩
    cases b <;> exact ⟨_, rfl⟩

theorem initialize_buffer_returns (E : ElemType α) (self : temporary_buffer) (v : α) (m : Mem α) :
    (self.initialize_buffer E v m).2 = Outcome.returned () := by
  unfold temporary_buffer.initialize_buffer
  split
  · rfl
  · obtain ⟨r, hr⟩ := uninitialized_fill_n_returns E self.buffer self.len v m
    rcases hfill : uninitialized_fill_n E self.buffer self.len v m with ⟨m1, o⟩
    rw [hfill] at hr
    dsimp only at hr
    subst hr
    rfl

/-- The members after construction are those `allocate_buffer` computed. -/
theorem ctor_members (malloc : List Event → Nat → Nat) (E : ElemType α) (first last : Nat)
    (self : temporary_buffer) (m : Mem α) :
    (temporary_buffer.ctor malloc E first last self m).2.1
      = (temporary_buffer.allocate_buffer malloc E
          { self with len := distance first last } m).2 ∧
    (temporary_buffer.ctor malloc E first last self m).2.2 = Outcome.returned () := by
  unfold temporary_buffer.ctor
  generalize temporary_buffer.allocate_buffer malloc E
    { self with len := distance first last } m = r
  by_cases hlen : r.2.len > 0
  · simp only [hlen, if_true]
    have hret := initialize_buffer_returns E r.2 (r.1.slot first).val r.1
    rcases hinit : r.2.initialize_buffer E (r.1.slot first).val r.1 with ⟨m2, o⟩
    rw [hinit] at hret
    dsimp only at hret
    subst hret
    exact ⟨rfl, rfl⟩
  · simp [hlen]

/-- The degrade loop against an allocator that grants exactly the requests of at most
`t` elements stops at the first value of `c, c/2, c/4, ...` that does not exceed `t`. -/
theorem allocate_buffer_loop_first_fit (malloc : List Event → Nat → Nat) (s t : Nat)
    (hmalloc : ∀ tr len, 0 < len → (malloc tr (len * s) ≠ 0 ↔ len ≤ t))
    (c buffer : Nat) (m : Mem α) :
    ∃ j, (allocate_buffer_loop malloc s c buffer m).2.1 = c / 2 ^ j ∧ c / 2 ^ j ≤ t ∧
      ∀ i, i < j → t < c / 2 ^ i := by
  induction c using Nat.strong_induction_on generalizing buffer m with
  | _ c ih =>
    rw [allocate_buffer_loop]
    by_cases hc : c > 0
    · simp only [hc, dite_true]
      by_cases hfit : c ≤ t
      · have hp : (malloc_call malloc (c * s) m).2 ≠ 0 := (hmalloc m.trace c hc).2 hfit
        rw [if_pos hp]
        exact ⟨0, by simp, by simpa using hfit, by simp⟩
      · have hp : ¬ (malloc_call malloc (c * s) m).2 ≠ 0 := fun h =>
          hfit ((hmalloc m.trace c hc).1 h)
        rw [if_neg hp]
        obtain ⟨j, h1, h2, h3⟩ := ih (c / 2) (Nat.div_lt_self hc (by decide))
          (malloc_call malloc (c * s) m).2 (malloc_call malloc (c * s) m).1
        have hdiv : ∀ i, c / 2 / 2 ^ i = c / 2 ^ (i + 1) := by
          intro i
          rw [Nat.div_div_eq_div_mul, pow_succ, Nat.mul_comm]
        refine ⟨j + 1, by rw [h1, hdiv], by rw [← hdiv]; exact h2, ?_⟩
        intro i hi
        cases i with
        | zero => simpa using Nat.lt_of_not_le hfit
        | succ i => rw [← hdiv]; exact h3 i (by omega)
    · have h0 : c = 0 := by omega
      subst h0
      simp only [gt_iff_lt, lt_self_iff_false, dite_false]
      exact ⟨0, by simp, by simp, by simp⟩

/-- The degrade loop against an allocator that always fails ends with length 0, and
with a null buffer as soon as one attempt was made. -/
theorem allocate_buffer_loop_all_fail (malloc : List Event → Nat → Nat) (s : Nat)
    (hfail : ∀ tr b, malloc tr b = 0) (c buffer : Nat) (m : Mem α) :
    (allocate_buffer_loop malloc s c buffer m).2.1 = 0 ∧
    (0 < c → (allocate_buffer_loop malloc s c buffer m).2.2 = 0) := by
  induction c using Nat.strong_induction_on generalizing buffer m with
  | _ c ih =>
    rw [allocate_buffer_loop]
    by_cases hc : c > 0
    · simp only [hc, dite_true]
      have hp : ¬ (malloc_call malloc (c * s) m).2 ≠ 0 := by simp [malloc_call, hfail]
      rw [if_neg hp]
      obtain ⟨h1, h2⟩ := ih (c / 2) (Nat.div_lt_self hc (by decide))
        (malloc_call malloc (c * s) m).2 (malloc_call malloc (c * s) m).1
      refine ⟨h1, fun _ => ?_⟩
      by_cases hc2 : 0 < c / 2
      · exact h2 hc2
      · have h0 : c / 2 = 0 := by omega
        rw [h0, allocate_buffer_loop]
        simp [malloc_call, hfail]
    · have h0 : c = 0 := by omega
      subst h0
      simp


/-- The degrade loop stops at once when the first request is granted. -/
theorem allocate_buffer_loop_granted (malloc : List Event → Nat → Nat) (s len buffer : Nat)
    (m : Mem α) (hlen : 0 < len) (hp : malloc m.trace (len * s) ≠ 0) :
    allocate_buffer_loop malloc s len buffer m
      = (m.log (Event.malloc (len * s) (malloc m.trace (len * s))), len,
          malloc m.trace (len * s)) := by
  rw [allocate_buffer_loop]
  simp [hlen, malloc_call, hp]

/-- The clamp of `allocate_buffer` is the minimum of the request and
`INT_MAX / sizeof(T)`. -/
theorem clamp_eq_min (n s : Nat) :
    (if n > INT_MAX / s then INT_MAX / s else n) = min n (INT_MAX / s) := by
  by_cases h : n > INT_MAX / s
  · rw [if_pos h, Nat.min_eq_right (Nat.le_of_lt h)]
  · rw [if_neg h, Nat.min_eq_left (Nat.le_of_not_gt h)]

/-- C7: when the platform grants exactly the requests of at most `t >= 1` elements,
the constructed buffer's `size()` is the first value not exceeding `t` in the sequence
`c, c/2, c/4, ...` that starts at the clamp `c = min(n, INT_MAX / sizeof(T))`; it is
the largest value of the sequence not exceeding `t`, it is positive unless the clamp
is 0, and `requested_size()` is `n`. -/
theorem temporary_buffer_size_first_fit (malloc : List Event → Nat → Nat) (E : ElemType α)
    (first n t : Nat) (self : temporary_buffer) (m : Mem α) (ht : 1 ≤ t)
    (hmalloc : ∀ tr len, 0 < len → (malloc tr (len * E.sizeof) ≠ 0 ↔ len ≤ t)) :
    (∃ j, (temporary_buffer.ctor malloc E first (first + n) self m).2.1.size
          = min n (INT_MAX / E.sizeof) / 2 ^ j ∧
        (temporary_buffer.ctor malloc E first (first + n) self m).2.1.size ≤ t ∧
        ∀ i, i < j → t < min n (INT_MAX / E.sizeof) / 2 ^ i) ∧
    (∀ i, min n (INT_MAX / E.sizeof) / 2 ^ i ≤ t →
        min n (INT_MAX / E.sizeof) / 2 ^ i
          ≤ (temporary_buffer.ctor malloc E first (first + n) self m).2.1.size) ∧
    (0 < min n (INT_MAX / E.sizeof) →
        0 < (temporary_buffer.ctor malloc E first (first + n) self m).2.1.size) ∧
    (temporary_buffer.ctor malloc E first (first + n) self m).2.1.requested_size = n := by
  rw [(ctor_members malloc E first (first + n) self m).1]
  simp only [temporary_buffer.allocate_buffer, temporary_buffer.size,
    temporary_buffer.requested_size, distance, Nat.add_sub_cancel_left, clamp_eq_min]
  obtain ⟨j, h1, h2, h3⟩ := allocate_buffer_loop_first_fit malloc E.sizeof t hmalloc
    (min n (INT_MAX / E.sizeof)) self.buffer m
  generalize min n (INT_MAX / E.sizeof) = c at h1 h2 h3 ⊢
  refine ⟨⟨j, h1, by rw [h1]; exact h2, h3⟩, ?_, ?_, trivial⟩
  · intro i hi
    rw [h1]
    by_cases hij : i < j
    · exact absurd hi (Nat.not_le_of_lt (h3 i hij))
    · exact Nat.div_le_div_left (Nat.pow_le_pow_right (by decide) (Nat.le_of_not_lt hij))
        (Nat.pos_pow_of_pos _ (by decide))
  · intro hc
    rw [h1]
    cases j with
    | zero => simpa using hc
    | succ j =>
      have hbig := h3 j (Nat.lt_succ_self j)
      have h2le : 2 ≤ c / 2 ^ j := by omega
      rw [pow_succ, ← Nat.div_div_eq_div_mul]
      exact Nat.div_pos h2le (by decide)

/-- Witness for C7: a request of 1 000 000 000 four-byte elements against a platform
that grants at most 1024 elements; the clamp is 536 870 911, whose nineteenth halving
is 1023. -/
theorem temporary_buffer_size_first_fit_witness :
    536870911 / 2 ^ 19 ≤ (temporary_buffer.ctor (fun _ b => if b ≤ 4096 then 100 else 0)
        (throwing_at 0) 1 (1 + 1000000000) ⟨0, 0, 0⟩ mem0).2.1.size ∧
    0 < (temporary_buffer.ctor (fun _ b => if b ≤ 4096 then 100 else 0) (throwing_at 0)
        1 (1 + 1000000000) ⟨0, 0, 0⟩ mem0).2.1.size ∧
    (temporary_buffer.ctor (fun _ b => if b ≤ 4096 then 100 else 0) (throwing_at 0)
        1 (1 + 1000000000) ⟨0, 0, 0⟩ mem0).2.1.requested_size = 1000000000 :=
  ⟨(temporary_buffer_size_first_fit (fun _ b => if b ≤ 4096 then 100 else 0) (throwing_at 0)
      1 1000000000 1024 ⟨0, 0, 0⟩ mem0 (by decide)
      (by intro tr len _; simp only [throwing_at]; split <;> omega)).2.1 19 (by decide),
   (temporary_buffer_size_first_fit (fun _ b => if b ≤ 4096 then 100 else 0) (throwing_at 0)
      1 1000000000 1024 ⟨0, 0, 0⟩ mem0 (by decide)
      (by intro tr len _; simp only [throwing_at]; split <;> omega)).2.2.1 (by decide),
   (temporary_buffer_size_first_fit (fun _ b => if b ≤ 4096 then 100 else 0) (throwing_at 0)
      1 1000000000 1024 ⟨0, 0, 0⟩ mem0 (by decide)
      (by intro tr len _; simp only [throwing_at]; split <;> omega)).2.2.2⟩

/-- When every allocation attempt fails, the constructed buffer has `size() == 0` and
`begin() == end()` and the constructor returns normally; if moreover the element size
lies between 1 and `INT_MAX`, a request of `n > 0` elements leads to at least one
attempt and the buffer pointer is null. -/
theorem temporary_buffer_all_allocations_fail (malloc : List Event → Nat → Nat)
    (E : ElemType α) (first n : Nat) (self : temporary_buffer) (m : Mem α) (hn : 0 < n)
    (hfail : ∀ tr b, malloc tr b = 0) :
    (temporary_buffer.ctor malloc E first (first + n) self m).2.1.size = 0 ∧
    (temporary_buffer.ctor malloc E first (first + n) self m).2.1.begin
      = (temporary_buffer.ctor malloc E first (first + n) self m).2.1.end ∧
    (temporary_buffer.ctor malloc E first (first + n) self m).2.2 = Outcome.returned () ∧
    (1 ≤ E.sizeof → E.sizeof ≤ INT_MAX →
      (temporary_buffer.ctor malloc E first (first + n) self m).2.1.buffer = 0) := by
  obtain ⟨hmem, hout⟩ := ctor_members malloc E first (first + n) self m
  rw [hout, hmem]
  simp only [temporary_buffer.allocate_buffer, temporary_buffer.size, temporary_buffer.begin,
    temporary_buffer.end, distance, Nat.add_sub_cancel_left, clamp_eq_min]
  obtain ⟨h1, h2⟩ := allocate_buffer_loop_all_fail malloc E.sizeof hfail
    (min n (INT_MAX / E.sizeof)) self.buffer m
  refine ⟨h1, by rw [h1]; rfl, trivial, ?_⟩
  intro hs1 hs2
  apply h2
  have : 0 < INT_MAX / E.sizeof := Nat.div_pos hs2 hs1
  exact Nat.lt_min.2 ⟨hn, this⟩

/-- A request of 5 four-byte elements against a platform that never grants anything
ends with size 0 and a null buffer pointer. -/
theorem temporary_buffer_all_allocations_fail_witness :
    (temporary_buffer.ctor (fun _ _ => 0) (throwing_at 0) 1 (1 + 5) ⟨7, 7, 7⟩ mem0).2.1.size = 0 ∧
    (temporary_buffer.ctor (fun _ _ => 0) (throwing_at 0) 1 (1 + 5) ⟨7, 7, 7⟩ mem0).2.1.buffer = 0 :=
  ⟨(temporary_buffer_all_allocations_fail (fun _ _ => 0) (throwing_at 0) 1 5 ⟨7, 7, 7⟩ mem0
      (by decide) (fun _ _ => rfl)).1,
   (temporary_buffer_all_allocations_fail (fun _ _ => 0) (throwing_at 0) 1 5 ⟨7, 7, 7⟩ mem0
      (by decide) (fun _ _ => rfl)).2.2.2 (by decide) (by decide)⟩

/-- For an element type larger than `INT_MAX` bytes the clamp `INT_MAX / sizeof(T)` is 0:
`allocate_buffer` sets the length to 0, makes no allocation attempt and leaves the
member `buffer` as it found it. -/
theorem allocate_buffer_oversized_element (malloc : List Event → Nat → Nat)
    (E : ElemType α) (self : temporary_buffer) (m : Mem α) (hs : INT_MAX < E.sizeof) :
    temporary_buffer.allocate_buffer malloc E self m
      = (m, { original_len := self.len, len := 0, buffer := self.buffer }) := by
  have hq : INT_MAX / E.sizeof = 0 := Nat.div_eq_of_lt hs
  have hclamp : (if self.len > INT_MAX / E.sizeof then INT_MAX / E.sizeof else self.len) = 0 := by
    rw [hq]
    split
    · rfl
    · omega
  simp only [temporary_buffer.allocate_buffer, hclamp]
  rw [allocate_buffer_loop]
  simp

/-- C8: a `temporary_buffer` over a range of one element of a type of `2^31` bytes
(`sizeof(T) > INT_MAX`), with a platform allocator that never grants anything and
members that start out holding the arbitrary value 7.  The clamp is 0, so no
allocation attempt is made and `buffer` is never assigned: the constructor returns
normally with `size() == 0` and `begin() == end()`, but the buffer pointer is still 7,
not null, and the destructor passes it to `free`. -/
theorem temporary_buffer_oversized_element_buffer_unassigned :
    (temporary_buffer.ctor (fun _ _ => 0) huge_type 1 2 ⟨7, 7, 7⟩ mem0).2.1
      = { original_len := 1, len := 0, buffer := 7 } ∧
    (temporary_buffer.ctor (fun _ _ => 0) huge_type 1 2 ⟨7, 7, 7⟩ mem0).2.1.size = 0 ∧
    (temporary_buffer.ctor (fun _ _ => 0) huge_type 1 2 ⟨7, 7, 7⟩ mem0).2.1.begin
      = (temporary_buffer.ctor (fun _ _ => 0) huge_type 1 2 ⟨7, 7, 7⟩ mem0).2.1.end ∧
    (temporary_buffer.ctor (fun _ _ => 0) huge_type 1 2 ⟨7, 7, 7⟩ mem0).2.2
      = Outcome.returned () ∧
    (temporary_buffer.ctor (fun _ _ => 0) huge_type 1 2 ⟨7, 7, 7⟩ mem0).2.1.buffer ≠ 0 ∧
    (temporary_buffer.ctor (fun _ _ => 0) huge_type 1 2 ⟨7, 7, 7⟩ mem0).1.trace = [] ∧
    free_calls (temporary_buffer.dtor huge_type
        (temporary_buffer.ctor (fun _ _ => 0) huge_type 1 2 ⟨7, 7, 7⟩ mem0).2.1
        (temporary_buffer.ctor (fun _ _ => 0) huge_type 1 2 ⟨7, 7, 7⟩ mem0).1).trace = [7] := by
  have hctor : temporary_buffer.ctor (fun _ _ => 0) huge_type 1 2 ⟨7, 7, 7⟩ mem0
      = (mem0, { original_len := 1, len := 0, buffer := 7 }, Outcome.returned ()) := by
    unfold temporary_buffer.ctor
    rw [allocate_buffer_oversized_element _ _ _ _ (by decide)]
    rfl
  rw [hctor]
  decide

/-- C9: a buffer of 3 elements is granted at address 100 and the copy of the exemplar
into slot index 1 (address 101) throws.  `uninitialized_fill_n` rolls slot 100 back and
returns normally, so the constructor's handler never runs: the buffer keeps
`size() == 3` and its non-null pointer, nothing is released, and no slot is live. -/
theorem temporary_buffer_fill_failure_not_emptied :
    (temporary_buffer.ctor (fun _ _ => 100) (throwing_at 101) 1 4 ⟨0, 0, 0⟩ mem0).2.1
      = { original_len := 3, len := 3, buffer := 100 } ∧
    (temporary_buffer.ctor (fun _ _ => 100) (throwing_at 101) 1 4 ⟨0, 0, 0⟩ mem0).1.trace
      = [Event.malloc 12 100, Event.construct 100, Event.destroy 100, Event.dtor 100] ∧
    free_calls (temporary_buffer.ctor (fun _ _ => 100) (throwing_at 101) 1 4 ⟨0, 0, 0⟩ mem0).1.trace
      = [] ∧
    ((temporary_buffer.ctor (fun _ _ => 100) (throwing_at 101) 1 4 ⟨0, 0, 0⟩ mem0).1.slot 100).state
      = SlotState.destroyed := by
  have halloc : temporary_buffer.allocate_buffer (fun _ _ => 100) (throwing_at 101)
      { original_len := 0, len := distance 1 4, buffer := 0 } mem0
      = (mem0.log (Event.malloc 12 100), { original_len := 3, len := 3, buffer := 100 }) := by
    have hclamp : (if distance 1 4 > INT_MAX / (throwing_at 101).sizeof
        then INT_MAX / (throwing_at 101).sizeof else distance 1 4) = 3 := by decide
    simp only [temporary_buffer.allocate_buffer, hclamp]
    rw [allocate_buffer_loop_granted _ _ _ _ _ (by decide) (by decide)]
    rfl
  unfold temporary_buffer.ctor
  rw [halloc]
  decide

/-- C10: the constructor of `temporary_buffer` returns normally for every input range,
every behaviour of the platform allocator and every pattern of throwing element
constructions. -/
theorem temporary_buffer_ctor_never_raises (malloc : List Event → Nat → Nat) (E : ElemType α)
    (first last : Nat) (self : temporary_buffer) (m : Mem α) :
    (temporary_buffer.ctor malloc E first last self m).2.2 = Outcome.returned () :=
  (ctor_members malloc E first last self m).2

end mystl

namespace mystl

/-! ## The degrade loop -/

theorem malloc_requests_append (xs ys : List Event) :
    malloc_requests (xs ++ ys) = malloc_requests xs ++ malloc_requests ys := by
  induction xs with
  | nil => rfl
  | cons e es ih => cases e <;> simp [malloc_requests, ih]

/-- The `i + 1`-st halving of `c` is the `i`-th halving of `c / 2`. -/
theorem halving_succ (c i : Nat) : c / 2 / 2 ^ i = c / 2 ^ (i + 1) := by
  rw [Nat.div_div_eq_div_mul, pow_succ, Nat.mul_comm]

/-- What the loop of `allocate_buffer` leaves: a length not above the start, and, when
it is positive, a non-null buffer that is the answer to the last allocation call, made
for exactly that many elements. -/
theorem allocate_buffer_loop_granted_state (malloc : List Event → Nat → Nat) (s : Nat)
    (c buffer : Nat) (m : Mem α) :
    (allocate_buffer_loop malloc s c buffer m).2.1 ≤ c ∧
    (0 < (allocate_buffer_loop malloc s c buffer m).2.1 →
      (allocate_buffer_loop malloc s c buffer m).2.2 ≠ 0 ∧
      ∃ pre, (allocate_buffer_loop malloc s c buffer m).1.trace
          = pre ++ [Event.malloc ((allocate_buffer_loop malloc s c buffer m).2.1 * s)
              (allocate_buffer_loop malloc s c buffer m).2.2] ∧
        malloc pre ((allocate_buffer_loop malloc s c buffer m).2.1 * s)
          = (allocate_buffer_loop malloc s c buffer m).2.2) := by
  induction c using Nat.strong_induction_on generalizing buffer m with
  | _ c ih =>
    rw [allocate_buffer_loop]
    by_cases hc : c > 0
    · simp only [hc, dite_true]
      by_cases hp : (malloc_call malloc (c * s) m).2 ≠ 0
      · rw [if_pos hp]
        exact ⟨Nat.le_refl c, fun _ => ⟨hp, m.trace, rfl, rfl⟩⟩
      · rw [if_neg hp]
        obtain ⟨h1, h2⟩ := ih (c / 2) (Nat.div_lt_self hc (by decide))
          (malloc_call malloc (c * s) m).2 (malloc_call malloc (c * s) m).1
        exact ⟨Nat.le_trans h1 (Nat.div_le_self c 2), h2⟩
    · have h0 : c = 0 := by omega
      subst h0
      simp

/-- The allocation calls of the loop of `allocate_buffer` started at `c`: they ask for
`c, c/2, c/4, ...` elements, every one of these lengths is positive, and there are at
most `log2 c + 1` of them (none when `c = 0`). -/
theorem allocate_buffer_loop_attempts (malloc : List Event → Nat → Nat) (s : Nat)
    (c buffer : Nat) (m : Mem α) :
    ∃ k, malloc_requests (allocate_buffer_loop malloc s c buffer m).1.trace
        = malloc_requests m.trace ++ (List.range k).map (fun i => c / 2 ^ i * s) ∧
      (∀ i, i < k → 0 < c / 2 ^ i) ∧ (c = 0 → k = 0) ∧ k ≤ Nat.log 2 c + 1 := by
  induction c using Nat.strong_induction_on generalizing buffer m with
  | _ c ih =>
    rw [allocate_buffer_loop]
    by_cases hc : c > 0
    · simp only [hc, dite_true]
      have hlog : malloc_requests (malloc_call malloc (c * s) m).1.trace
          = malloc_requests m.trace ++ [c * s] := by
        simp [malloc_call, Mem.log, malloc_requests_append, malloc_requests]
      by_cases hp : (malloc_call malloc (c * s) m).2 ≠ 0
      · rw [if_pos hp]
        refine ⟨1, ?_, ?_, ?_, ?_⟩
        · rw [hlog, show List.range 1 = [0] from rfl]
          simp
        · intro i hi
          have : i = 0 := by omega
          subst this
          simpa using hc
        · intro h; omega
        · omega
      · rw [if_neg hp]
        obtain ⟨k, h1, h2, h3, h4⟩ := ih (c / 2) (Nat.div_lt_self hc (by decide))
          (malloc_call malloc (c * s) m).2 (malloc_call malloc (c * s) m).1
        refine ⟨k + 1, ?_, ?_, ?_, ?_⟩
        · rw [h1, hlog, List.range_succ_eq_map, List.map_cons, List.map_map, List.append_assoc]
          simp only [pow_zero, Nat.div_one, List.singleton_append, List.cons.injEq, true_and,
            List.append_cancel_left_eq]
          apply List.map_congr_left
          intro i _
          simp [halving_succ]
        · intro i hi
          cases i with
          | zero => simpa using hc
          | succ i => rw [← halving_succ]; exact h2 i (by omega)
        · intro h; omega
        · by_cases hc2 : c / 2 = 0
          · have := h3 hc2
            omega
          · have h2le : 2 ≤ c := by omega
            have : Nat.log 2 c = Nat.log 2 (c / 2) + 1 := Nat.log_of_one_lt_of_le (by decide) h2le
            omega
    · have h0 : c = 0 := by omega
      subst h0
      simp only [gt_iff_lt, lt_self_iff_false, dite_false]
      exact ⟨0, by simp, by simp, by simp, by simp⟩

/-- Successive halvings are strictly decreasing as long as they are positive. -/
theorem halvings_strictly_decreasing (c k : Nat) (hpos : ∀ i, i < k → 0 < c / 2 ^ i) :
    List.Pairwise (fun a b => a > b) ((List.range k).map (fun i => c / 2 ^ i)) := by
  rw [List.pairwise_map]
  refine List.Pairwise.imp_of_mem ?_ (List.pairwise_lt_range k)
  intro a b ha _ hab
  have hpa := hpos a (List.mem_range.1 ha)
  have h1 : c / 2 ^ b ≤ c / 2 ^ (a + 1) :=
    Nat.div_le_div_left (Nat.pow_le_pow_right (by decide) hab) (Nat.pos_pow_of_pos _ (by decide))
  have h2 : c / 2 ^ (a + 1) < c / 2 ^ a := by
    rw [pow_succ, ← Nat.div_div_eq_div_mul]
    exact Nat.div_lt_self hpa (by decide)
  exact Nat.lt_of_le_of_lt h1 h2

/-- The loop of `get_buffer_helper` stops at once on a length that is not positive. -/
theorem get_buffer_loop_nonpos (malloc : List Event → Nat → Nat) (s : Nat) (len : Int)
    (m : Mem α) (h : len ≤ 0) : get_buffer_loop malloc s len m = (m, (0, 0)) := by
  rw [get_buffer_loop]
  simp [Int.not_lt.2 h]

/-- On a non-negative length the loop of `get_buffer_helper` does what the loop of
`allocate_buffer` does: same allocation calls, same final length, and the pointer
returned is the final buffer, or null together with length 0. -/
theorem get_buffer_loop_natCast (malloc : List Event → Nat → Nat) (s : Nat)
    (c buffer : Nat) (m : Mem α) :
    get_buffer_loop malloc s (c : Int) m
      = ((allocate_buffer_loop malloc s c buffer m).1,
          (if (allocate_buffer_loop malloc s c buffer m).2.1 = 0 then 0
            else (allocate_buffer_loop malloc s c buffer m).2.2,
           ((allocate_buffer_loop malloc s c buffer m).2.1 : Int))) := by
  induction c using Nat.strong_induction_on generalizing buffer m with
  | _ c ih =>
    rw [allocate_buffer_loop, get_buffer_loop]
    by_cases hc : c > 0
    · have hci : (c : Int) > 0 := by exact_mod_cast hc
      simp only [hc, hci, dite_true, Int.toNat_ofNat]
      by_cases hp : (malloc_call malloc (c * s) m).2 ≠ 0
      · rw [if_pos hp, if_pos hp]
        have hne : ¬ c = 0 := by omega
        simp [hne]
      · rw [if_neg hp, if_neg hp]
        have hdiv : (c : Int) / 2 = ((c / 2 : Nat) : Int) := by norm_cast
        rw [hdiv]
        exact ih (c / 2) (Nat.div_lt_self hc (by decide)) _ _
    · have h0 : c = 0 := by omega
      subst h0
      simp

/-- The clamp of `get_buffer_helper` followed by its loop, in terms of natural numbers:
a negative request behaves as a request of 0. -/
theorem get_buffer_helper_eq (malloc : List Event → Nat → Nat) (s : Nat) (len : Int)
    (m : Mem α) :
    get_buffer_helper malloc s len m
      = get_buffer_loop malloc s ((min len.toNat (INT_MAX / s) : Nat) : Int) m := by
  unfold get_buffer_helper
  generalize INT_MAX / s = q
  by_cases hneg : len < 0
  · have h1 : ¬ len > (q : Int) := by omega
    have h2 : len.toNat = 0 := by omega
    rw [if_neg h1, h2, get_buffer_loop_nonpos _ _ _ _ (by omega)]
    simp [get_buffer_loop_nonpos]
  · congr 1
    by_cases h : len > (q : Int)
    · rw [if_pos h]
      congr 1
      omega
    · rw [if_neg h]
      omega

/-- C11: for every requested length `n` and every behaviour of the platform allocator,
the constructed buffer has `0 <= size() <= requested_size()` and
`requested_size() == n`; and when `size() > 0` the buffer pointer is non-null and is
the answer of the last allocation call of the acquisition, which asked for exactly
`size()` elements. -/
theorem temporary_buffer_acquisition_state (malloc : List Event → Nat → Nat) (E : ElemType α)
    (first n : Nat) (self : temporary_buffer) (m : Mem α) :
    0 ≤ (temporary_buffer.ctor malloc E first (first + n) self m).2.1.size ∧
    (temporary_buffer.ctor malloc E first (first + n) self m).2.1.size
      ≤ (temporary_buffer.ctor malloc E first (first + n) self m).2.1.requested_size ∧
    (temporary_buffer.ctor malloc E first (first + n) self m).2.1.requested_size = n ∧
    (0 < (temporary_buffer.ctor malloc E first (first + n) self m).2.1.size →
      (temporary_buffer.ctor malloc E first (first + n) self m).2.1.buffer ≠ 0 ∧
      ∃ pre, (temporary_buffer.allocate_buffer malloc E { self with len := n } m).1.trace
          = pre ++ [Event.malloc
              ((temporary_buffer.ctor malloc E first (first + n) self m).2.1.size * E.sizeof)
              (temporary_buffer.ctor malloc E first (first + n) self m).2.1.buffer] ∧
        malloc pre ((temporary_buffer.ctor malloc E first (first + n) self m).2.1.size * E.sizeof)
          = (temporary_buffer.ctor malloc E first (first + n) self m).2.1.buffer) := by
  rw [(ctor_members malloc E first (first + n) self m).1]
  simp only [temporary_buffer.allocate_buffer, temporary_buffer.size,
    temporary_buffer.requested_size, distance, Nat.add_sub_cancel_left, clamp_eq_min]
  obtain ⟨h1, h2⟩ := allocate_buffer_loop_granted_state malloc E.sizeof
    (min n (INT_MAX / E.sizeof)) self.buffer m
  exact ⟨Nat.zero_le _, Nat.le_trans h1 (Nat.min_le_left _ _), trivial, h2⟩

/-- C12: the degrade loops of `temporary_buffer::allocate_buffer` and of
`get_temporary_buffer` are total functions of the requested length and of the
allocator's behaviour.  Started at the clamped length `c`, each makes `k` allocation
calls, for `c, c/2, c/4, ...` elements, these lengths are strictly decreasing, and
`k <= log2 c + 1` (with `k = 0` when `c = 0`, which covers negative requests to
`get_temporary_buffer`). -/
theorem degrade_loop_bounded (malloc : List Event → Nat → Nat) (E : ElemType α)
    (n : Nat) (len : Int) (self : temporary_buffer) (m : Mem α) :
    (∃ k, malloc_requests (temporary_buffer.allocate_buffer malloc E
            { self with len := n } m).1.trace
          = malloc_requests m.trace
            ++ (List.range k).map (fun i => min n (INT_MAX / E.sizeof) / 2 ^ i * E.sizeof) ∧
        List.Pairwise (fun a b => a > b)
          ((List.range k).map (fun i => min n (INT_MAX / E.sizeof) / 2 ^ i)) ∧
        (min n (INT_MAX / E.sizeof) = 0 → k = 0) ∧
        k ≤ Nat.log 2 (min n (INT_MAX / E.sizeof)) + 1) ∧
    (∃ k, malloc_requests (get_temporary_buffer malloc E len m).1.trace
          = malloc_requests m.trace
            ++ (List.range k).map (fun i => min len.toNat (INT_MAX / E.sizeof) / 2 ^ i * E.sizeof) ∧
        List.Pairwise (fun a b => a > b)
          ((List.range k).map (fun i => min len.toNat (INT_MAX / E.sizeof) / 2 ^ i)) ∧
        (min len.toNat (INT_MAX / E.sizeof) = 0 → k = 0) ∧
        k ≤ Nat.log 2 (min len.toNat (INT_MAX / E.sizeof)) + 1) := by
  constructor
  · simp only [temporary_buffer.allocate_buffer, clamp_eq_min]
    obtain ⟨k, h1, h2, h3, h4⟩ := allocate_buffer_loop_attempts malloc E.sizeof
      (min n (INT_MAX / E.sizeof)) self.buffer m
    exact ⟨k, h1, halvings_strictly_decreasing _ k h2, h3, h4⟩
  · rw [get_temporary_buffer, get_buffer_helper_eq,
      get_buffer_loop_natCast malloc E.sizeof _ 0 m]
    obtain ⟨k, h1, h2, h3, h4⟩ := allocate_buffer_loop_attempts malloc E.sizeof
      (min len.toNat (INT_MAX / E.sizeof)) 0 m
    exact ⟨k, h1, halvings_strictly_decreasing _ k h2, h3, h4⟩

end mystl

namespace mystl

/-! ## auto_ptr -/

/-- Replacing the entry `a` at position `i` by `b` changes a sum over the list by
`f b - f a`. -/
theorem sum_map_set {β : Type} (f : β → Nat) (l : List β) (i : Nat) (a b : β)
    (h : l[i]? = some a) :
    ((l.set i b).map f).sum + f a = (l.map f).sum + f b := by
  induction l generalizing i with
  | nil => simp at h
  | cons x xs ih =>
    cases i with
    | zero =>
      simp only [List.getElem?_cons_zero, Option.some.injEq] at h
      subst h
      simp only [List.set_cons_zero, List.map_cons, List.sum_cons]
      omega
    | succ i =>
      simp only [List.getElem?_cons_succ] at h
      have := ih i h
      simp only [List.set_cons_succ, List.map_cons, List.sum_cons]
      omega

theorem holds_null (p : Nat) (hp : p ≠ 0) : holds (some ⟨0⟩) p = 0 := by
  unfold holds
  rw [if_neg]
  intro h
  simp only [Option.some.injEq, auto_ptr.mk.injEq] at h
  exact hp h.symm

theorem holds_none (p : Nat) : holds none p = 0 := by
  simp [holds]

theorem holds_some (x : auto_ptr) (p : Nat) :
    holds (some x) p = if x.m_ptr = p then 1 else 0 := by
  cases x
  simp [holds]

/-- What `delete q` adds to the number of times `o` was freed. -/
theorem count_delete_expr (q o : Nat) (freed : List Nat) (ho : o ≠ 0) :
    (delete_expr q freed).count o = freed.count o + (if q = o then 1 else 0) := by
  unfold delete_expr
  by_cases hq : q = 0
  · subst hq
    have : ¬ (0 = o) := fun h => ho h.symm
    simp [this]
  · by_cases hqo : q = o
    · subst hqo
      simp [hq, List.count_append]
    · simp [hq, hqo, List.count_append, List.count_cons]

theorem copy_ctor_owners (st : Owners) (rhs p : Nat) (hp : p ≠ 0) :
    (st.copy_ctor rhs).owners p = st.owners p := by
  unfold Owners.copy_ctor
  split
  · rename_i r hr
    have h := sum_map_set (fun x => holds x p) st.obj rhs (some r) (some r.release.1) hr
    simp only [auto_ptr.release, holds_null p hp, holds_some] at h
    simp only [Owners.owners, auto_ptr.release, List.map_append, List.sum_append, List.map_cons,
      List.map_nil, List.sum_cons, List.sum_nil, holds_some]
    omega
  · rfl

theorem copy_ctor_freed (st : Owners) (rhs : Nat) : (st.copy_ctor rhs).freed = st.freed := by
  unfold Owners.copy_ctor
  split <;> rfl

/-- The two assignments change the owners of `p` in the same way when they act: the
former holder on the left loses its object. -/
theorem assign_update_owners (l : List (Option auto_ptr)) (this rhs p : Nat) (t r : auto_ptr)
    (hp : p ≠ 0) (hne : this ≠ rhs) (ht : l[this]? = some (some t))
    (hr : l[rhs]? = some (some r)) :
    (((l.set rhs (some r.release.1)).set this (some ⟨r.release.2⟩)).map
        (fun x => holds x p)).sum + holds (some t) p
      = (l.map (fun x => holds x p)).sum := by
  have h1 := sum_map_set (fun x => holds x p) l rhs (some r) (some r.release.1) hr
  have ht1 : (l.set rhs (some r.release.1))[this]? = some (some t) := by
    rw [List.getElem?_set_ne (Ne.symm hne)]
    exact ht
  have h2 := sum_map_set (fun x => holds x p) (l.set rhs (some r.release.1)) this (some t)
    (some ⟨r.release.2⟩) ht1
  simp only [auto_ptr.release, holds_null p hp, holds_some] at h1 h2 ⊢
  omega

theorem assign_owners_le (st : Owners) (this rhs p : Nat) (hp : p ≠ 0) :
    (st.assign this rhs).owners p ≤ st.owners p := by
  unfold Owners.assign
  split
  · rename_i t r ht hr
    by_cases hne : this ≠ rhs
    · rw [if_pos hne]
      have := assign_update_owners st.obj this rhs p t r hp hne ht hr
      simp only [Owners.owners]
      omega
    · rw [if_neg hne]
  · exact Nat.le_refl _

theorem assign_converting_owners_le (st : Owners) (this rhs p : Nat) (hp : p ≠ 0) :
    (st.assign_converting this rhs).owners p ≤ st.owners p := by
  unfold Owners.assign_converting
  split
  · rename_i t r ht hr
    by_cases hg : t.get ≠ r.get
    · rw [if_pos hg]
      have hne : this ≠ rhs := by
        intro h
        subst h
        rw [ht] at hr
        simp only [Option.some.injEq] at hr
        exact hg (by rw [hr])
      have := assign_update_owners st.obj this rhs p t r hp hne ht hr
      simp only [Owners.owners]
      omega
    · rw [if_neg hg]
  · exact Nat.le_refl _

theorem release_at_owners_le (st : Owners) (a p : Nat) (hp : p ≠ 0) :
    (st.release_at a).1.owners p ≤ st.owners p := by
  unfold Owners.release_at
  split
  · rename_i x hx
    have h := sum_map_set (fun x => holds x p) st.obj a (some x) (some x.release.1) hx
    simp only [auto_ptr.release, holds_null p hp] at h
    simp only [Owners.owners, auto_ptr.release]
    omega
  · exact Nat.le_refl _

/-- Destroying an `auto_ptr` object removes it from the owners of `o` and frees `o`
exactly when it held `o`. -/
theorem destroy_at_balance (st : Owners) (a o : Nat) (ho : o ≠ 0) :
    (st.destroy_at a).owners o + (st.destroy_at a).freed.count o
      = st.owners o + st.freed.count o := by
  unfold Owners.destroy_at
  split
  · rename_i x hx
    have h := sum_map_set (fun x => holds x o) st.obj a (some x) none hx
    simp only [holds_none, holds_some] at h
    simp only [Owners.owners, auto_ptr.dtor, count_delete_expr _ _ _ ho]
    omega
  · rfl

theorem destroy_at_owners_le (st : Owners) (a p : Nat) :
    (st.destroy_at a).owners p ≤ st.owners p := by
  unfold Owners.destroy_at
  split
  · rename_i x hx
    have h := sum_map_set (fun x => holds x p) st.obj a (some x) none hx
    simp only [holds_none] at h
    simp only [Owners.owners]
    omega
  · exact Nat.le_refl _

theorem foldl_copy_ctor_balance (srcs : List Nat) (st : Owners) (o : Nat) (ho : o ≠ 0) :
    (srcs.foldl Owners.copy_ctor st).owners o + (srcs.foldl Owners.copy_ctor st).freed.count o
      = st.owners o + st.freed.count o := by
  induction srcs generalizing st with
  | nil => rfl
  | cons a srcs ih =>
    rw [List.foldl_cons, ih, copy_ctor_owners st a o ho, copy_ctor_freed]

theorem foldl_destroy_at_balance (order : List Nat) (st : Owners) (o : Nat) (ho : o ≠ 0) :
    (order.foldl Owners.destroy_at st).owners o + (order.foldl Owners.destroy_at st).freed.count o
      = st.owners o + st.freed.count o := by
  induction order generalizing st with
  | nil => rfl
  | cons a order ih =>
    rw [List.foldl_cons, ih, destroy_at_balance st a o ho]

theorem destroy_at_length (st : Owners) (a : Nat) :
    (st.destroy_at a).obj.length = st.obj.length := by
  unfold Owners.destroy_at
  split <;> simp

/-- An object whose destructor has run stays so. -/
theorem destroy_at_dead_stays (st : Owners) (a i : Nat) (h : st.obj[i]? = some none) :
    (st.destroy_at a).obj[i]? = some none := by
  unfold Owners.destroy_at
  split
  · rename_i x hx
    by_cases hai : a = i
    · subst hai
      rw [h] at hx
      simp at hx
    · simp only [List.getElem?_set_ne hai]
      exact h
  · exact h

theorem destroy_at_kills (st : Owners) (a : Nat) (ha : a < st.obj.length) :
    (st.destroy_at a).obj[a]? = some none := by
  unfold Owners.destroy_at
  split
  · simp [ha]
  · rename_i hx
    rcases hget : st.obj[a]? with _ | x
    · rw [List.getElem?_eq_none_iff] at hget
      omega
    · cases x with
      | none => rfl
      | some y => exact absurd hget (hx y)

theorem foldl_destroy_at_dead (order : List Nat) (st : Owners) (i : Nat)
    (h : st.obj[i]? = some none) : (order.foldl Owners.destroy_at st).obj[i]? = some none := by
  induction order generalizing st with
  | nil => exact h
  | cons a order ih => exact ih _ (destroy_at_dead_stays st a i h)

theorem foldl_destroy_at_length (order : List Nat) (st : Owners) :
    (order.foldl Owners.destroy_at st).obj.length = st.obj.length := by
  induction order generalizing st with
  | nil => rfl
  | cons a order ih => rw [List.foldl_cons, ih, destroy_at_length]

/-- After the destruction of every object of the list, none is live. -/
theorem foldl_destroy_at_kills (order : List Nat) (st : Owners) (i : Nat) (hi : i ∈ order)
    (hlen : i < st.obj.length) : (order.foldl Owners.destroy_at st).obj[i]? = some none := by
  induction order generalizing st with
  | nil => simp at hi
  | cons a order ih =>
    rw [List.foldl_cons]
    rcases List.mem_cons.1 hi with h | h
    · subst h
      exact foldl_destroy_at_dead order _ i (destroy_at_kills st i hlen)
    · exact ih _ h (by rw [destroy_at_length]; exact hlen)

theorem owners_all_dead (l : List (Option auto_ptr)) (o : Nat)
    (h : ∀ i, i < l.length → l[i]? = some none) :
    (l.map (fun x => holds x o)).sum = 0 := by
  induction l with
  | nil => rfl
  | cons x xs ih =>
    have h0 := h 0 (by simp)
    simp only [List.getElem?_cons_zero, Option.some.injEq] at h0
    subst h0
    simp only [List.map_cons, List.sum_cons, holds_none, Nat.zero_add]
    apply ih
    intro i hi
    have := h (i + 1) (by simpa using hi)
    simpa using this

/-- C13: copy-constructing a new `auto_ptr` from the one at `a` leaves `a.get()` null
and the new object (at the next free position) holding the pointer `a` held before,
and frees nothing; `p = 0` is the case of an empty `a`, the new object is then empty
too. -/
theorem auto_ptr_copy_ctor_transfers (st : Owners) (a p : Nat)
    (ha : st.obj[a]? = some (some ⟨p⟩)) :
    (st.copy_ctor a).get_at a = 0 ∧
    (st.copy_ctor a).get_at st.obj.length = p ∧
    (st.copy_ctor a).freed = st.freed := by
  have hlt : a < st.obj.length := by
    by_contra hge
    rw [List.getElem?_eq_none_iff.2 (by omega)] at ha
    simp at ha
  unfold Owners.copy_ctor
  rw [ha]
  simp [Owners.get_at, auto_ptr.release, auto_ptr.get, List.getElem?_append, hlt]

/-- Witness for C13: an owner of object 5, and an empty `auto_ptr`. -/
theorem auto_ptr_copy_ctor_transfers_witness :
    ((Owners.mk [some ⟨5⟩] []).copy_ctor 0).get_at 0 = 0 ∧
    ((Owners.mk [some ⟨5⟩] []).copy_ctor 0).get_at 1 = 5 ∧
    ((Owners.mk [some ⟨0⟩] []).copy_ctor 0).get_at 1 = 0 ∧
    ((Owners.mk [some ⟨5⟩] []).copy_ctor 0).freed = [] :=
  ⟨(auto_ptr_copy_ctor_transfers (Owners.mk [some ⟨5⟩] []) 0 5 rfl).1,
   (auto_ptr_copy_ctor_transfers (Owners.mk [some ⟨5⟩] []) 0 5 rfl).2.1,
   (auto_ptr_copy_ctor_transfers (Owners.mk [some ⟨0⟩] []) 0 0 rfl).2.1,
   (auto_ptr_copy_ctor_transfers (Owners.mk [some ⟨5⟩] []) 0 5 rfl).2.2⟩

/-- C14: let exactly one live `auto_ptr` own the object `o`, not yet freed.  After any
sequence of copy-constructions (each from any existing object, in particular a chain
starting at the owner) followed by the destruction of every `auto_ptr` object, in any
order, `o` has been freed exactly once. -/
theorem auto_ptr_freed_exactly_once (st : Owners) (o : Nat) (ho : o ≠ 0)
    (hown : st.owners o = 1) (hfree : st.freed.count o = 0) (srcs order : List Nat)
    (horder : order.Perm (List.range (srcs.foldl Owners.copy_ctor st).obj.length)) :
    (order.foldl Owners.destroy_at (srcs.foldl Owners.copy_ctor st)).freed.count o = 1 := by
  have h1 := foldl_copy_ctor_balance srcs st o ho
  have h2 := foldl_destroy_at_balance order (srcs.foldl Owners.copy_ctor st) o ho
  have h3 : (order.foldl Owners.destroy_at (srcs.foldl Owners.copy_ctor st)).owners o = 0 := by
    apply owners_all_dead
    intro i hi
    rw [foldl_destroy_at_length] at hi
    exact foldl_destroy_at_kills order _ i (horder.mem_iff.2 (List.mem_range.2 hi)) hi
  omega

/-- Witness for C14: `b` copy-constructed from the owner `a` of object 5, then `b` and
`a` destroyed, in either order. -/
theorem auto_ptr_freed_exactly_once_witness :
    ([1, 0].foldl Owners.destroy_at ([0].foldl Owners.copy_ctor (Owners.mk [some ⟨5⟩] []))).freed.count 5
      = 1 ∧
    ([0, 1].foldl Owners.destroy_at ([0].foldl Owners.copy_ctor (Owners.mk [some ⟨5⟩] []))).freed.count 5
      = 1 :=
  ⟨auto_ptr_freed_exactly_once (Owners.mk [some ⟨5⟩] []) 5 (by decide) (by decide) (by decide)
      [0] [1, 0] (by decide),
   auto_ptr_freed_exactly_once (Owners.mk [some ⟨5⟩] []) 5 (by decide) (by decide) (by decide)
      [0] [0, 1] (by decide)⟩

/-- C15: if no two live `auto_ptr` objects hold the same non-null object, this is
still so after a copy-construction from any of them, an assignment between any two of
them (self-assignment included, and also through the converting `operator=`), a
`release()` and the destruction of any of them. -/
theorem auto_ptr_unique_owner_preserved (st : Owners) (a b : Nat) (h : st.unique_owner) :
    (st.copy_ctor a).unique_owner ∧
    (st.assign b a).unique_owner ∧
    (st.assign a a).unique_owner ∧
    (st.assign_converting b a).unique_owner ∧
    (st.release_at a).1.unique_owner ∧
    (st.destroy_at a).unique_owner := by
  refine ⟨?_, ?_, ?_, ?_, ?_, ?_⟩ <;> intro p hp
  · rw [copy_ctor_owners st a p hp]; exact h p hp
  · exact Nat.le_trans (assign_owners_le st b a p hp) (h p hp)
  · exact Nat.le_trans (assign_owners_le st a a p hp) (h p hp)
  · exact Nat.le_trans (assign_converting_owners_le st b a p hp) (h p hp)
  · exact Nat.le_trans (release_at_owners_le st a p hp) (h p hp)
  · exact Nat.le_trans (destroy_at_owners_le st a p) (h p hp)

/-- Two owners of distinct objects and an empty `auto_ptr` satisfy the invariant. -/
theorem two_owners_unique : (Owners.mk [some ⟨5⟩, some ⟨6⟩, some ⟨0⟩] []).unique_owner := by
  intro p hp
  simp only [Owners.owners, holds, List.map, List.sum_cons, List.sum_nil, Option.some.injEq,
    auto_ptr.mk.injEq]
  split_ifs <;> omega

/-- Witness for C15: owners of objects 5 and 6 and an empty `auto_ptr`. -/
theorem auto_ptr_unique_owner_preserved_witness :
    ((Owners.mk [some ⟨5⟩, some ⟨6⟩, some ⟨0⟩] []).copy_ctor 0).unique_owner ∧
    ((Owners.mk [some ⟨5⟩, some ⟨6⟩, some ⟨0⟩] []).assign 1 0).unique_owner ∧
    ((Owners.mk [some ⟨5⟩, some ⟨6⟩, some ⟨0⟩] []).destroy_at 0).unique_owner :=
  ⟨(auto_ptr_unique_owner_preserved _ 0 1 two_owners_unique).1,
   (auto_ptr_unique_owner_preserved _ 0 1 two_owners_unique).2.1,
   (auto_ptr_unique_owner_preserved _ 0 1 two_owners_unique).2.2.2.2.2⟩

theorem getElem?_some_lt {β : Type} (l : List β) (i : Nat) (x : β) (h : l[i]? = some x) :
    i < l.length := by
  by_contra hge
  rw [List.getElem?_eq_none_iff.2 (by omega)] at h
  simp at h

/-- C16: for two distinct `auto_ptr` objects `a` and `b` holding different objects, or
empty, after `b = a` the object `b` held is freed exactly once (nothing is freed if
`b` was empty), `b.get()` is the pointer `a` held and `a.get()` is null, through
`operator=(auto_ptr&)` and through the converting `operator=` alike; the
self-assignment `a = a` changes nothing. -/
theorem auto_ptr_assign_transfers (st : Owners) (a b pa pb : Nat) (hab : a ≠ b)
    (ha : st.obj[a]? = some (some ⟨pa⟩)) (hb : st.obj[b]? = some (some ⟨pb⟩))
    (hdiff : pa = pb → pa = 0) :
    ((st.assign b a).freed = st.freed ++ (if pb = 0 then [] else [pb]) ∧
      (st.assign b a).get_at b = pa ∧ (st.assign b a).get_at a = 0) ∧
    ((st.assign_converting b a).freed = st.freed ++ (if pb = 0 then [] else [pb]) ∧
      (st.assign_converting b a).get_at b = pa ∧ (st.assign_converting b a).get_at a = 0) ∧
    st.assign a a = st := by
  have hla := getElem?_some_lt _ _ _ ha
  have hlb := getElem?_some_lt _ _ _ hb
  have hba : b ≠ a := Ne.symm hab
  have hmain : ((Owners.mk ((st.obj.set a (some (auto_ptr.release ⟨pa⟩).1)).set b
        (some ⟨(auto_ptr.release ⟨pa⟩).2⟩)) (delete_expr pb st.freed)).freed
        = st.freed ++ (if pb = 0 then [] else [pb]) ∧
      (Owners.mk ((st.obj.set a (some (auto_ptr.release ⟨pa⟩).1)).set b
        (some ⟨(auto_ptr.release ⟨pa⟩).2⟩)) (delete_expr pb st.freed)).get_at b = pa ∧
      (Owners.mk ((st.obj.set a (some (auto_ptr.release ⟨pa⟩).1)).set b
        (some ⟨(auto_ptr.release ⟨pa⟩).2⟩)) (delete_expr pb st.freed)).get_at a = 0) := by
    refine ⟨?_, ?_, ?_⟩
    · by_cases hpb : pb = 0 <;> simp [delete_expr, hpb]
    · simp [Owners.get_at, auto_ptr.release, auto_ptr.get, hlb]
    · simp [Owners.get_at, auto_ptr.release, auto_ptr.get, List.getElem?_set_ne hba, hla]
  refine ⟨?_, ?_, ?_⟩
  · unfold Owners.assign
    rw [hb, ha]
    simp only [hba, ne_eq, not_false_eq_true, if_true]
    exact hmain
  · unfold Owners.assign_converting
    rw [hb, ha]
    by_cases hg : pb = pa
    · have hpa : pa = 0 := hdiff hg.symm
      have hpb : pb = 0 := by omega
      subst hpa
      subst hpb
      simp [auto_ptr.get, Owners.get_at, ha, hb]
    · have hg2 : (auto_ptr.mk pb).get ≠ (auto_ptr.mk pa).get := hg
      dsimp only
      rw [if_pos hg2]
      exact hmain
  · unfold Owners.assign
    split
    · simp
    · rfl

/-- Witness for C16: `b` (holding object 6) assigned from `a` (holding object 5). -/
theorem auto_ptr_assign_transfers_witness :
    ((Owners.mk [some ⟨5⟩, some ⟨6⟩] []).assign 1 0).freed = [] ++ (if 6 = 0 then [] else [6]) ∧
    ((Owners.mk [some ⟨5⟩, some ⟨6⟩] []).assign 1 0).get_at 1 = 5 ∧
    ((Owners.mk [some ⟨5⟩, some ⟨6⟩] []).assign 1 0).get_at 0 = 0 :=
  (auto_ptr_assign_transfers (Owners.mk [some ⟨5⟩, some ⟨6⟩] []) 0 1 5 6 (by decide) rfl rfl
    (by decide)).1

/-- C17: `release()` returns the pointer held before the call, leaves `get()` null and
frees nothing; a second `release()` right after returns null. -/
theorem auto_ptr_release_detaches (st : Owners) (a p : Nat)
    (ha : st.obj[a]? = some (some ⟨p⟩)) :
    (st.release_at a).2 = p ∧
    (st.release_at a).1.get_at a = 0 ∧
    (st.release_at a).1.freed = st.freed ∧
    ((st.release_at a).1.release_at a).2 = 0 := by
  have hla := getElem?_some_lt _ _ _ ha
  have h1 : st.release_at a
      = ({ obj := st.obj.set a (some ⟨0⟩), freed := st.freed }, p) := by
    unfold Owners.release_at
    rw [ha]
    rfl
  rw [h1]
  refine ⟨rfl, ?_, rfl, ?_⟩
  · simp [Owners.get_at, auto_ptr.get, hla]
  · simp [Owners.release_at, auto_ptr.release, hla]

/-- Witness for C17: an `auto_ptr` holding object 5. -/
theorem auto_ptr_release_detaches_witness :
    ((Owners.mk [some ⟨5⟩] []).release_at 0).2 = 5 ∧
    ((Owners.mk [some ⟨5⟩] []).release_at 0).1.get_at 0 = 0 ∧
    ((Owners.mk [some ⟨5⟩] []).release_at 0).1.freed = [] ∧
    (((Owners.mk [some ⟨5⟩] []).release_at 0).1.release_at 0).2 = 0 :=
  auto_ptr_release_detaches (Owners.mk [some ⟨5⟩] []) 0 5 rfl

/-- C18: for an `auto_ptr` holding `q`, after `reset(p)` `get()` is `p`; if `q != p`
the object `q` is freed exactly once, nothing being freed for a null `q`; if `q == p`
nothing is freed. -/
theorem auto_ptr_reset_adopts (st : Owners) (a q p : Nat)
    (ha : st.obj[a]? = some (some ⟨q⟩)) :
    (st.reset_at a p).get_at a = p ∧
    (q ≠ p → (st.reset_at a p).freed = st.freed ++ (if q = 0 then [] else [q])) ∧
    (q = p → (st.reset_at a p).freed = st.freed) := by
  have hla := getElem?_some_lt _ _ _ ha
  unfold Owners.reset_at
  rw [ha]
  by_cases hqp : q = p
  · subst hqp
    simp [auto_ptr.reset, Owners.get_at, auto_ptr.get, hla]
  · by_cases hq : q = 0
    · subst hq
      simp [auto_ptr.reset, Owners.get_at, auto_ptr.get, hla, hqp, delete_expr]
    · simp [auto_ptr.reset, Owners.get_at, auto_ptr.get, hla, hqp, delete_expr, hq]

/-- Witness for C18: an `auto_ptr` holding object 5 reset to object 6. -/
theorem auto_ptr_reset_adopts_witness :
    ((Owners.mk [some ⟨5⟩] []).reset_at 0 6).get_at 0 = 6 ∧
    ((Owners.mk [some ⟨5⟩] []).reset_at 0 6).freed = [] ++ (if 5 = 0 then [] else [5]) :=
  ⟨(auto_ptr_reset_adopts (Owners.mk [some ⟨5⟩] []) 0 5 6 rfl).1,
   (auto_ptr_reset_adopts (Owners.mk [some ⟨5⟩] []) 0 5 6 rfl).2.1 (by decide)⟩

end mystl

namespace mystl

/-! ## allocator -/

/-- C19: when `allocate(n)` succeeds with `p` and `deallocate(p, n)` follows at once,
the platform calls issued are, for `n > 0`, one allocation call answered `p` (not
null) followed by one release call on `p`, and for `n == 0` none at all. -/
theorem allocate_then_deallocate_balanced (platform : List Event → Nat → Nat) (E : ElemType α)
    (n p : Nat) (m : Mem α)
    (hok : (allocator_allocate platform E n m).2 = Outcome.returned p) :
    (allocator_deallocate_n p n (allocator_allocate platform E n m).1).trace
      = m.trace ++ (if n = 0 then []
          else [Event.malloc (n * E.sizeof % 2 ^ SIZE_BITS) p, Event.free p]) ∧
    (0 < n → p ≠ 0) ∧ (n = 0 → p = 0) := by
  unfold allocator_allocate at hok ⊢
  by_cases hn : n = 0
  · simp only [hn, if_true, Outcome.returned.injEq] at hok ⊢
    subst hok
    simp [allocator_deallocate_n]
  · simp only [hn, if_false, operator_new] at hok ⊢
    by_cases hp : platform m.trace (n * E.sizeof % 2 ^ SIZE_BITS) ≠ 0
    · simp only [hp, ne_eq, not_false_eq_true, if_true, Outcome.returned.injEq] at hok ⊢
      subst hok
      refine ⟨?_, fun _ => hp, fun h => h.elim⟩
      simp [allocator_deallocate_n, hp, operator_delete, Mem.log]
    · simp [hp] at hok

/-- Witness for C19: three four-byte elements, the platform answers address 100. -/
theorem allocate_then_deallocate_balanced_witness :
    (allocator_deallocate_n 100 3 (allocator_allocate (fun _ _ => 100) (throwing_at 0) 3 mem0).1).trace
      = mem0.trace ++ (if 3 = 0 then []
          else [Event.malloc (3 * (throwing_at 0).sizeof % 2 ^ SIZE_BITS) 100, Event.free 100]) :=
  (allocate_then_deallocate_balanced (fun _ _ => 100) (throwing_at 0) 3 100 mem0 (by decide)).1

/-- C20: `allocate(n)` raises exactly when `n > 0` and the platform allocation call
fails; `allocate(0)` returns null and issues no platform call; for `n > 0` a
successful call returns the region the platform answered, which is not null. -/
theorem allocate_raises_iff (platform : List Event → Nat → Nat) (E : ElemType α)
    (n : Nat) (m : Mem α) :
    ((allocator_allocate platform E n m).2 = Outcome.raised ↔
      (0 < n ∧ platform m.trace (n * E.sizeof % 2 ^ SIZE_BITS) = 0)) ∧
    allocator_allocate platform E 0 m = (m, Outcome.returned 0) ∧
    (0 < n → ∀ p, (allocator_allocate platform E n m).2 = Outcome.returned p →
      p = platform m.trace (n * E.sizeof % 2 ^ SIZE_BITS) ∧ p ≠ 0 ∧
      (allocator_allocate platform E n m).1.trace
        = m.trace ++ [Event.malloc (n * E.sizeof % 2 ^ SIZE_BITS) p]) := by
  refine ⟨?_, by simp [allocator_allocate], ?_⟩
  · unfold allocator_allocate
    by_cases hn : n = 0
    · simp [hn]
    · have hpos : 0 < n := Nat.pos_of_ne_zero hn
      by_cases hp : platform m.trace (n * E.sizeof % 2 ^ SIZE_BITS) ≠ 0
      · simp [hn, operator_new, hp]
      · simp only [ne_eq, not_not] at hp
        simp [hn, operator_new, hp, hpos]
  · intro hpos p hret
    have hn : n ≠ 0 := by omega
    unfold allocator_allocate at hret ⊢
    simp only [hn, if_false, operator_new] at hret ⊢
    by_cases hp : platform m.trace (n * E.sizeof % 2 ^ SIZE_BITS) ≠ 0
    · simp only [hp, ne_eq, not_false_eq_true, if_true, Outcome.returned.injEq] at hret ⊢
      subst hret
      exact ⟨rfl, hp, by simp [Mem.log]⟩
    · simp [hp] at hret

end mystl

namespace mystl

/-! ## destroy -/

/-- The slots after a single-slot `destroy`: only the slot at a non-null `p` changes,
and only for a type that is not trivially destructible. -/
theorem destroy_slot (E : ElemType α) (p q : Nat) (m : Mem α) :
    (destroy E p m).slot q
      = if E.traits.trivially_destructible = false ∧ p ≠ 0 ∧ q = p
        then ⟨SlotState.destroyed, (m.slot p).val⟩ else m.slot q := by
  unfold destroy destroy_one_true_type destroy_one_false_type Mem.log Mem.write
  cases E.traits.trivially_destructible <;> by_cases hp : p = 0 <;> by_cases hq : q = p <;>
    simp [hp, hq]

/-- The loop `for (; first != last; ++first) destroy(&*first)` leaves every slot
outside the range as it was. -/
theorem destroy_each_slot_frame (E : ElemType α) (n first q : Nat) (m : Mem α)
    (hq : q < first ∨ first + n ≤ q) : (destroy_each E n first m).slot q = m.slot q := by
  induction n generalizing first m with
  | zero => rfl
  | succ n ih =>
    rw [destroy_each, ih (first + 1) _ (by omega), destroy_slot, if_neg]
    intro h
    omega

/-- For a type that is not trivially destructible, the loop leaves every slot of a
range that starts at a non-null address destroyed, with its stored value. -/
theorem destroy_each_slot (E : ElemType α) (n first q : Nat) (m : Mem α)
    (hd : E.traits.trivially_destructible = false) (hfirst : 0 < first)
    (hq : first ≤ q ∧ q < first + n) :
    (destroy_each E n first m).slot q = ⟨SlotState.destroyed, (m.slot q).val⟩ := by
  induction n generalizing first m with
  | zero => omega
  | succ n ih =>
    rw [destroy_each]
    by_cases hqf : q = first
    · subst hqf
      rw [destroy_each_slot_frame E n (q + 1) q _ (by omega), destroy_slot, if_pos]
      exact ⟨hd, by omega, rfl⟩
    · rw [ih (first + 1) _ (by omega) (by omega), destroy_slot, if_neg]
      intro h
      exact hqf h.2.2

/-- C21: for a trivially destructible element type, `destroy(first, last)` changes
nothing at all (no destructor runs, every slot keeps its state and contents), and
`destroy(slot)` on a single slot runs no destructor and leaves every slot as it was. -/
theorem destroy_trivial_is_noop (E : ElemType α) (first last p : Nat) (m : Mem α)
    (h : E.traits.trivially_destructible = true) :
    destroy_range E first last m = m ∧
    dtor_runs (destroy_range E first last m).trace = dtor_runs m.trace ∧
    (destroy E p m).slot = m.slot ∧
    dtor_runs (destroy E p m).trace = dtor_runs m.trace := by
  have hr : destroy_range E first last m = m := by
    simp [destroy_range, h, destroy_cat_true_type]
  refine ⟨hr, by rw [hr], ?_, ?_⟩
  · funext q
    rw [destroy_slot, if_neg]
    intro hq
    rw [h] at hq
    exact absurd hq.1 (by decide)
  · rw [dtor_runs_destroy, if_neg, List.append_nil]
    intro hq
    rw [h] at hq
    exact absurd hq.1 (by decide)

/-- Witness for C21: the four live slots of `mem0` and a trivially destructible type. -/
theorem destroy_trivial_is_noop_witness :
    destroy_range trivial_type 1 5 mem0 = mem0 ∧
    dtor_runs (destroy_range trivial_type 1 5 mem0).trace = dtor_runs mem0.trace ∧
    (destroy trivial_type 2 mem0).slot = mem0.slot ∧
    dtor_runs (destroy trivial_type 2 mem0).trace = dtor_runs mem0.trace :=
  destroy_trivial_is_noop trivial_type 1 5 2 mem0 rfl

/-- C22: run on 3 elements whose third construction (destination slot index 2,
address 12) throws, the handler of `uninitialized_copy_n` calls `destroy` on address
12 (never constructed) and then on address 11, and never on address 10: the rollback
is not the slots `[0, 2)`, slot index 0 stays live, and the call returns normally. -/
theorem uninitialized_copy_n_rollback_is_shifted :
    (uninitialized_copy_n nontrivial (throwing_at 12) 1 3 10 mem0).1.trace
      = [Event.construct 10, Event.construct 11,
         Event.destroy 12, Event.dtor 12, Event.destroy 11, Event.dtor 11] ∧
    destroy_calls (uninitialized_copy_n nontrivial (throwing_at 12) 1 3 10 mem0).1.trace
      ≠ List.range' 10 2 ∧
    ((uninitialized_copy_n nontrivial (throwing_at 12) 1 3 10 mem0).1.slot 10).state
      = SlotState.live ∧
    ((uninitialized_copy_n nontrivial (throwing_at 12) 1 3 10 mem0).1.slot 12).state
      = SlotState.destroyed ∧
    (uninitialized_copy_n nontrivial (throwing_at 12) 1 3 10 mem0).2 = Outcome.returned 10 := by
  decide

/-- C24: with one and the same destination element type (not trivially copy- or
move-assignable), `uninitialized_copy_n`, `uninitialized_move` and
`uninitialized_move_n` take the bulk path (no construction) when the source iterator's
value type is trivially assignable and the construct loop when it is not: the choice
follows the source type. -/
theorem dispatch_follows_source_type :
    constructions (uninitialized_copy_n trivial_type.traits (throwing_at 0) 1 2 10 mem0).1.trace = [] ∧
    constructions (uninitialized_copy_n nontrivial (throwing_at 0) 1 2 10 mem0).1.trace = [10, 11] ∧
    constructions (uninitialized_move trivial_type.traits (throwing_at 0) 1 3 10 mem0).1.trace = [] ∧
    constructions (uninitialized_move nontrivial (throwing_at 0) 1 3 10 mem0).1.trace = [10, 11] ∧
    constructions (uninitialized_move_n trivial_type.traits (throwing_at 0) 1 2 10 mem0).1.trace = [] ∧
    constructions (uninitialized_move_n nontrivial (throwing_at 0) 1 2 10 mem0).1.trace = [10, 11] ∧
    (throwing_at 0).traits.trivially_copy_assignable = false ∧
    (throwing_at 0).traits.trivially_move_assignable = false := by
  decide

/-- C26: for an element type that is not trivially destructible and a range of `n`
slots starting at a non-null address, `destroy(first, last)` runs the destructor on
each slot of the range exactly once, in increasing address order, leaves each of them
destroyed (with its stored value) and every slot outside the range as it was;
`destroy` on a null pointer runs no destructor and changes no slot. -/
theorem destroy_range_runs_each_destructor (E : ElemType α) (first n : Nat) (m : Mem α)
    (hd : E.traits.trivially_destructible = false) (hfirst : 0 < first) :
    dtor_runs (destroy_range E first (first + n) m).trace
      = dtor_runs m.trace ++ List.range' first n ∧
    (∀ i, i < n → ((m.slot (first + i)).state = SlotState.live →
      (destroy_range E first (first + n) m).slot (first + i)
        = ⟨SlotState.destroyed, (m.slot (first + i)).val⟩)) ∧
    (∀ q, q < first ∨ first + n ≤ q →
      (destroy_range E first (first + n) m).slot q = m.slot q) ∧
    dtor_runs (destroy E 0 m).trace = dtor_runs m.trace ∧
    (destroy E 0 m).slot = m.slot := by
  have hr : destroy_range E first (first + n) m = destroy_each E n first m := by
    simp [destroy_range, hd, destroy_cat_false_type]
  rw [hr]
  refine ⟨dtor_runs_destroy_each E n first m hd hfirst, ?_, ?_, ?_, ?_⟩
  · intro i hi _
    exact destroy_each_slot E n first (first + i) m hd hfirst (by omega)
  · intro q hq
    exact destroy_each_slot_frame E n first q m hq
  · rw [dtor_runs_destroy, if_neg (by simp), List.append_nil]
  · funext q
    rw [destroy_slot, if_neg (by simp)]

/-- Witness for C26: the live slots at addresses 1 to 3 of `mem0`. -/
theorem destroy_range_runs_each_destructor_witness :
    dtor_runs (destroy_range (throwing_at 0) 1 (1 + 3) mem0).trace
      = dtor_runs mem0.trace ++ List.range' 1 3 ∧
    (destroy_range (throwing_at 0) 1 (1 + 3) mem0).slot (1 + 2)
      = ⟨SlotState.destroyed, (mem0.slot (1 + 2)).val⟩ ∧
    (destroy_range (throwing_at 0) 1 (1 + 3) mem0).slot 4 = mem0.slot 4 :=
  ⟨(destroy_range_runs_each_destructor (throwing_at 0) 1 3 mem0 rfl (by decide)).1,
   (destroy_range_runs_each_destructor (throwing_at 0) 1 3 mem0 rfl (by decide)).2.1 2
      (by decide) (by decide),
   (destroy_range_runs_each_destructor (throwing_at 0) 1 3 mem0 rfl (by decide)).2.2.1 4
      (by decide)⟩

end mystl

namespace mystl

/-! ## Rollback of uninitialized_move_n -/

/-- A single-slot `destroy` only appends to the trace. -/
theorem destroy_trace_extends (E : ElemType α) (p : Nat) (m : Mem α) :
    ∃ tail, (destroy E p m).trace = m.trace ++ tail :=
  ⟨_, by rw [destroy_trace, List.append_assoc]⟩

/-- The forward rollback loop only appends to the trace. -/
theorem destroy_each_trace_extends (E : ElemType α) (n first : Nat) (m : Mem α) :
    ∃ tail, (destroy_each E n first m).trace = m.trace ++ tail := by
  induction n generalizing first m with
  | zero => exact ⟨[], by simp [destroy_each]⟩
  | succ n ih =>
    obtain ⟨t1, h1⟩ := destroy_trace_extends E first m
    obtain ⟨t2, h2⟩ := ih (first + 1) (destroy E first m)
    exact ⟨t1 ++ t2, by rw [destroy_each, h2, h1, List.append_assoc]⟩

/-- One iteration of the protected loop whose body does not raise. -/
theorem try_loop_step_ok {t : Nat → Bool} {body : Nat → Nat → Mem α → Mem α × Outcome Unit}
    (hb : ConstructsAt t body) (n first cur : Nat) (m : Mem α) (h : t cur = false) :
    try_loop body (n + 1) first cur m
      = try_loop body n (first + 1) (cur + 1) (body cur first m).1 := by
  have h0 := (hb cur first m).2 h
  rw [try_loop]
  rcases hbody : body cur first m with ⟨m1, o⟩
  rw [hbody] at h0
  cases o with
  | returned r => rfl
  | raised => simp at h0

/-- An iteration of the protected loop whose body raises ends the loop. -/
theorem try_loop_step_raise (body : Nat → Nat → Mem α → Mem α × Outcome Unit) (n first cur : Nat)
    (m m1 : Mem α) (h : body cur first m = (m1, Outcome.raised)) :
    try_loop body (n + 1) first cur m = (m1, cur, true) := by
  rw [try_loop, h]

/-- A loop that is stopped by the body at `cur + k` leaves the memory that `k`
iterations leave. -/
theorem try_loop_fail_mem {t : Nat → Bool} {body : Nat → Nat → Mem α → Mem α × Outcome Unit}
    (hb : ConstructsAt t body) (k n first cur : Nat) (m : Mem α) (hk : k < n)
    (hok : ∀ i, i < k → t (cur + i) = false) (hbad : t (cur + k) = true) :
    (try_loop body n first cur m).1 = (try_loop body k first cur m).1 := by
  induction k generalizing n first cur m with
  | zero =>
    obtain ⟨n, rfl⟩ : ∃ j, n = j + 1 := ⟨n - 1, by omega⟩
    have h0 := (hb cur first m).1 (by simpa using hbad)
    rw [try_loop_step_raise body n first cur m m h0]
    rfl
  | succ k ih =>
    obtain ⟨n, rfl⟩ : ∃ j, n = j + 1 := ⟨n - 1, by omega⟩
    have hc : t cur = false := by simpa using hok 0 (Nat.succ_pos k)
    rw [try_loop_step_ok hb n first cur m hc, try_loop_step_ok hb k first cur m hc]
    exact ih n (first + 1) (cur + 1) _ (by omega)
      (fun i hi => by
        have := hok (i + 1) (Nat.succ_lt_succ hi)
        rwa [show cur + 1 + i = cur + (i + 1) by omega])
      (by rwa [show cur + 1 + k = cur + (k + 1) by omega])

/-- A move construction changes only the destination slot and the source slot. -/
theorem construct_args_slot_frame (E : ElemType α) (ptr src q : Nat) (m : Mem α)
    (h1 : q ≠ ptr) (h2 : q ≠ src) : (construct_args E ptr src m).1.slot q = m.slot q := by
  unfold construct_args
  split
  · rfl
  · simp [Mem.write, h1, h2]

/-- The move loop over `n` elements changes only the `n` destination slots and the
`n` source slots. -/
theorem move_loop_slot_frame (E : ElemType α) (n first cur q : Nat) (m : Mem α)
    (hq : ∀ i, i < n → q ≠ cur + i ∧ q ≠ first + i) :
    (try_loop (fun cur first m => construct_args E cur first m) n first cur m).1.slot q
      = m.slot q := by
  induction n generalizing first cur m with
  | zero => rfl
  | succ n ih =>
    by_cases hc : E.move_throws cur = true
    · have h0 := ((constructsAt_construct_args E) cur first m).1 hc
      rw [try_loop_step_raise _ n first cur m m h0]
    · have hc2 : E.move_throws cur = false := by simpa using hc
      rw [try_loop_step_ok (constructsAt_construct_args E) n first cur m hc2,
        ih (first + 1) (cur + 1) _ (fun i hi => by
          have := hq (i + 1) (Nat.succ_lt_succ hi)
          constructor <;> omega)]
      have := hq 0 (Nat.succ_pos n)
      exact construct_args_slot_frame E cur first q m (by omega) (by omega)

/-- C23: on the non-trivial path, over non-overlapping source and destination ranges,
when the construction of destination slot `k < n` is the first to throw,
`uninitialized_move_n` ends by raising; by then its trace is the `k` constructions
followed by the rollback, which consists of exactly the `k` `destroy` calls on slots
`dest, ..., dest + k - 1` in this order; and every source element of index greater
than `k` is as it was. -/
theorem uninitialized_move_n_rollback_then_raise (S : Traits) (E : ElemType α)
    (first n dest k : Nat) (m : Mem α) (hk : k < n)
    (hok : ∀ i, i < k → E.move_throws (dest + i) = false)
    (hbad : E.move_throws (dest + k) = true)
    (hm : S.trivially_move_assignable = false)
    (hdisj : ∀ i j, i < n → j < n → first + i ≠ dest + j) :
    (uninitialized_move_n S E first n dest m).2 = Outcome.raised ∧
    (∃ tail, (uninitialized_move_n S E first n dest m).1.trace
        = m.trace ++ (List.range' dest k).map Event.construct ++ tail ∧
      destroy_calls tail = List.range' dest k ∧ constructions tail = []) ∧
    (∀ j, k < j → j < n →
      (uninitialized_move_n S E first n dest m).1.slot (first + j) = m.slot (first + j)) := by
  have hfail := try_loop_fail (constructsAt_construct_args E) k n first dest m hk hok hbad
  have hmem := try_loop_fail_mem (constructsAt_construct_args E) k n first dest m hk hok hbad
  have hrun : uninitialized_move_n S E first n dest m
      = (destroy_each E k dest
          (try_loop (fun cur first m => construct_args E cur first m) n first dest m).1,
         Outcome.raised) := by
    simp only [uninitialized_move_n, hm, unchecked_uninit_move_n_false_type]
    rcases hr : try_loop (fun cur first m => construct_args E cur first m) n first dest m
      with ⟨m1, cur, b⟩
    rw [hr] at hfail
    obtain ⟨h1, -⟩ := hfail
    simp only [Prod.mk.injEq] at h1
    obtain ⟨rfl, rfl⟩ := h1
    simp
  rw [hrun]
  refine ⟨rfl, ?_, ?_⟩
  · obtain ⟨tail, htail⟩ : ∃ tail, (destroy_each E k dest
        (try_loop (fun cur first m => construct_args E cur first m) n first dest m).1).trace
        = (try_loop (fun cur first m => construct_args E cur first m) n first dest m).1.trace
          ++ tail := destroy_each_trace_extends E k dest _
    refine ⟨tail, by rw [htail, hfail.2], ?_, ?_⟩
    · have h := destroy_calls_destroy_each E k dest
        (try_loop (fun cur first m => construct_args E cur first m) n first dest m).1
      rw [htail, destroy_calls_append] at h
      exact List.append_cancel_left h
    · have h := constructions_destroy_each E k dest
        (try_loop (fun cur first m => construct_args E cur first m) n first dest m).1
      rw [htail, constructions_append] at h
      exact List.append_cancel_left (by rw [h, List.append_nil])
  · intro j hkj hjn
    rw [destroy_each_slot_frame E k dest (first + j) _
      (by
        by_contra hcon
        have hin : dest ≤ first + j ∧ first + j < dest + k := by omega
        exact hdisj j (first + j - dest) hjn (by omega) (by omega)), hmem]
    exact move_loop_slot_frame E k first dest (first + j) m (fun i hi => by
      constructor
      · exact hdisj j i hjn (by omega)
      · omega)

/-- Witness for C23: two elements moved from addresses 1, 2 to addresses 10, 11, the
second construction throws. -/
theorem uninitialized_move_n_rollback_then_raise_witness :
    (uninitialized_move_n nontrivial (throwing_at 11) 1 3 10 mem0).2 = Outcome.raised ∧
    (uninitialized_move_n nontrivial (throwing_at 11) 1 3 10 mem0).1.slot (1 + 2)
      = mem0.slot (1 + 2) :=
  ⟨(uninitialized_move_n_rollback_then_raise nontrivial (throwing_at 11) 1 3 10 1 mem0
      (by decide) (by decide) (by decide) (by decide)
      (by intro i j hi hj; omega)).1,
   (uninitialized_move_n_rollback_then_raise nontrivial (throwing_at 11) 1 3 10 1 mem0
      (by decide) (by decide) (by decide) (by decide)
      (by intro i j hi hj; omega)).2.2 2 (by decide) (by decide)⟩

end mystl

namespace mystl

/-! ## Life of a temporary_buffer -/

/-- The acquisition for a range of 3 elements against a platform that answers every
request with address 100: one allocation call, all 3 elements granted. -/
theorem allocate_buffer_three_granted (E : ElemType Nat) (hs : E.sizeof = 4) :
    temporary_buffer.allocate_buffer (fun _ _ => 100) E
        { original_len := 0, len := distance 1 4, buffer := 0 } mem0
      = (mem0.log (Event.malloc 12 100), { original_len := 3, len := 3, buffer := 100 }) := by
  have hclamp : (if distance 1 4 > INT_MAX / E.sizeof
      then INT_MAX / E.sizeof else distance 1 4) = 3 := by
    rw [hs]
    decide
  simp only [temporary_buffer.allocate_buffer, hclamp]
  rw [allocate_buffer_loop_granted _ _ _ _ _ (by decide) (by decide), hs]
  rfl

/-- C25: a buffer of 3 elements is granted at address 100 and the copy of the exemplar
into slot index 1 (address 101) throws: slot 100 is constructed and rolled back, slots
101 and 102 are never constructed, yet the buffer keeps `size() == 3`.  The destructor
then runs the element destructor on 100 (a second time), 101 and 102, none of which is
live. -/
theorem temporary_buffer_dtor_destroys_dead_slots :
    constructions (temporary_buffer.dtor (throwing_at 101)
        (temporary_buffer.ctor (fun _ _ => 100) (throwing_at 101) 1 4 ⟨0, 0, 0⟩ mem0).2.1
        (temporary_buffer.ctor (fun _ _ => 100) (throwing_at 101) 1 4 ⟨0, 0, 0⟩ mem0).1).trace
      = [100] ∧
    dtor_runs (temporary_buffer.ctor (fun _ _ => 100) (throwing_at 101) 1 4 ⟨0, 0, 0⟩ mem0).1.trace
      = [100] ∧
    ((temporary_buffer.ctor (fun _ _ => 100) (throwing_at 101) 1 4 ⟨0, 0, 0⟩ mem0).1.slot 100).state
      = SlotState.destroyed ∧
    ((temporary_buffer.ctor (fun _ _ => 100) (throwing_at 101) 1 4 ⟨0, 0, 0⟩ mem0).1.slot 101).state
      = SlotState.uninitialized ∧
    dtor_runs (temporary_buffer.dtor (throwing_at 101)
        (temporary_buffer.ctor (fun _ _ => 100) (throwing_at 101) 1 4 ⟨0, 0, 0⟩ mem0).2.1
        (temporary_buffer.ctor (fun _ _ => 100) (throwing_at 101) 1 4 ⟨0, 0, 0⟩ mem0).1).trace
      = [100, 100, 101, 102] := by
  unfold temporary_buffer.ctor
  rw [allocate_buffer_three_granted (throwing_at 101) rfl]
  decide

/-! ## Sizes asked of the platform -/

/-- Every halving of a length that does not exceed `INT_MAX / s` stays in that bound,
and its byte count does not exceed `INT_MAX`. -/
theorem halving_bytes_bounded (c s i : Nat) (hc : c ≤ INT_MAX / s) :
    c / 2 ^ i ≤ INT_MAX / s ∧ c / 2 ^ i * s ≤ INT_MAX ∧ c / 2 ^ i * s < 2 ^ SIZE_BITS := by
  have h1 : c / 2 ^ i ≤ INT_MAX / s := Nat.le_trans (Nat.div_le_self _ _) hc
  have h2 : c / 2 ^ i * s ≤ INT_MAX :=
    Nat.le_trans (Nat.mul_le_mul_right s h1) (Nat.div_mul_le_self INT_MAX s)
  refine ⟨h1, h2, Nat.lt_of_le_of_lt h2 (by decide)⟩

/-- The allocation calls of the degrade loop started at `c <= INT_MAX / s`. -/
theorem allocate_buffer_loop_requests_bounded (malloc : List Event → Nat → Nat) (s : Nat)
    (c buffer : Nat) (m : Mem α) (hc : c ≤ INT_MAX / s) :
    ∃ lens : List Nat,
      malloc_requests (allocate_buffer_loop malloc s c buffer m).1.trace
        = malloc_requests m.trace ++ lens.map (fun l => l * s) ∧
      ∀ l, l ∈ lens → 1 ≤ l ∧ l ≤ INT_MAX / s ∧ l * s ≤ INT_MAX ∧ l * s < 2 ^ SIZE_BITS := by
  obtain ⟨k, h1, h2, -, -⟩ := allocate_buffer_loop_attempts malloc s c buffer m
  refine ⟨(List.range k).map (fun i => c / 2 ^ i), ?_, ?_⟩
  · rw [h1, List.map_map]
    rfl
  · intro l hl
    obtain ⟨i, hi, rfl⟩ := List.mem_map.1 hl
    obtain ⟨b1, b2, b3⟩ := halving_bytes_bounded c s i hc
    exact ⟨h2 i (List.mem_range.1 hi), b1, b2, b3⟩

/-- C27: in `temporary_buffer::allocate_buffer` and in `get_temporary_buffer`, for
every requested length, element size and allocator behaviour, every allocation call
asks for `len * sizeof(T)` bytes with `1 <= len <= INT_MAX / sizeof(T)`; the byte
count does not exceed `INT_MAX` and the product does not wrap in `size_t`. -/
theorem degrade_requests_bounded (malloc : List Event → Nat → Nat) (E : ElemType α)
    (n : Nat) (len : Int) (self : temporary_buffer) (m : Mem α) :
    (∃ lens : List Nat,
      malloc_requests (temporary_buffer.allocate_buffer malloc E
          { self with len := n } m).1.trace
        = malloc_requests m.trace ++ lens.map (fun l => l * E.sizeof) ∧
      ∀ l, l ∈ lens → 1 ≤ l ∧ l ≤ INT_MAX / E.sizeof ∧ l * E.sizeof ≤ INT_MAX ∧
        l * E.sizeof < 2 ^ SIZE_BITS) ∧
    (∃ lens : List Nat,
      malloc_requests (get_temporary_buffer malloc E len m).1.trace
        = malloc_requests m.trace ++ lens.map (fun l => l * E.sizeof) ∧
      ∀ l, l ∈ lens → 1 ≤ l ∧ l ≤ INT_MAX / E.sizeof ∧ l * E.sizeof ≤ INT_MAX ∧
        l * E.sizeof < 2 ^ SIZE_BITS) := by
  constructor
  · simp only [temporary_buffer.allocate_buffer, clamp_eq_min]
    exact allocate_buffer_loop_requests_bounded malloc E.sizeof _ self.buffer m
      (Nat.min_le_right _ _)
  · rw [get_temporary_buffer, get_buffer_helper_eq,
      get_buffer_loop_natCast malloc E.sizeof _ 0 m]
    exact allocate_buffer_loop_requests_bounded malloc E.sizeof _ 0 m (Nat.min_le_right _ _)

/-- C28, as stated, fails: `allocate(2^62)` for an element type of size 4 asks the
platform for 0 bytes, the product `2^62 * 4 = 2^64` having wrapped in `size_t`. -/
theorem allocate_product_wraps :
    malloc_requests (allocator_allocate (fun _ _ => 100) (throwing_at 0) (2 ^ 62) mem0).1.trace
      = [0] ∧
    malloc_requests (allocator_allocate (fun _ _ => 100) (throwing_at 0) (2 ^ 62) mem0).1.trace
      ≠ [2 ^ 62 * (throwing_at 0).sizeof] ∧
    2 ^ 62 < 2 ^ SIZE_BITS := by
  decide

/-- C28, amended: for every `n > 0` the byte count `allocate(n)` asks of the platform
is `n * sizeof(T)` reduced modulo `2^64`; it is the exact product whenever that
product is below `2^64`. -/
theorem allocate_requests_product_mod (platform : List Event → Nat → Nat) (E : ElemType α)
    (n : Nat) (m : Mem α) (hn : 0 < n) :
    malloc_requests (allocator_allocate platform E n m).1.trace
      = malloc_requests m.trace ++ [n * E.sizeof % 2 ^ SIZE_BITS] ∧
    (n * E.sizeof < 2 ^ SIZE_BITS →
      malloc_requests (allocator_allocate platform E n m).1.trace
        = malloc_requests m.trace ++ [n * E.sizeof]) := by
  have hne : n ≠ 0 := by omega
  have h1 : malloc_requests (allocator_allocate platform E n m).1.trace
      = malloc_requests m.trace ++ [n * E.sizeof % 2 ^ SIZE_BITS] := by
    unfold allocator_allocate operator_new
    rw [if_neg hne]
    split <;> simp [Mem.log, malloc_requests_append, malloc_requests]
  refine ⟨h1, fun hlt => ?_⟩
  rw [h1, Nat.mod_eq_of_lt hlt]

/-- Witness for C28: three four-byte elements. -/
theorem allocate_requests_product_mod_witness :
    malloc_requests (allocator_allocate (fun _ _ => 100) (throwing_at 0) 3 mem0).1.trace
      = malloc_requests mem0.trace ++ [3 * (throwing_at 0).sizeof] :=
  (allocate_requests_product_mod (fun _ _ => 100) (throwing_at 0) 3 mem0 (by decide)).2
    (by decide)

/-- C29: for every requested length `n >= 0` and every allocator behaviour,
`get_temporary_buffer(n)` makes the allocation calls that
`temporary_buffer::allocate_buffer` makes for the same request, returns as length the
length that `allocate_buffer` grants, and returns a null pointer exactly when that
length is 0. -/
theorem get_temporary_buffer_agrees (malloc : List Event → Nat → Nat) (E : ElemType α)
    (n : Nat) (self : temporary_buffer) (m : Mem α) :
    (get_temporary_buffer malloc E (n : Int) m).2.2
      = ((temporary_buffer.allocate_buffer malloc E { self with len := n } m).2.len : Int) ∧
    ((get_temporary_buffer malloc E (n : Int) m).2.1 = 0 ↔
      (get_temporary_buffer malloc E (n : Int) m).2.2 = 0) ∧
    (get_temporary_buffer malloc E (n : Int) m).1
      = (temporary_buffer.allocate_buffer malloc E { self with len := n } m).1 := by
  rw [get_temporary_buffer, get_buffer_helper_eq, Int.toNat_ofNat,
    get_buffer_loop_natCast malloc E.sizeof _ self.buffer m]
  simp only [temporary_buffer.allocate_buffer, clamp_eq_min]
  obtain ⟨-, hpos⟩ := allocate_buffer_loop_granted_state malloc E.sizeof
    (min n (INT_MAX / E.sizeof)) self.buffer m
  refine ⟨trivial, ?_, trivial⟩
  by_cases h0 : (allocate_buffer_loop malloc E.sizeof (min n (INT_MAX / E.sizeof))
      self.buffer m).2.1 = 0
  · simp [h0]
  · have hne := (hpos (Nat.pos_of_ne_zero h0)).1
    simp [h0, hne]

/-! ## swap -/

/-- C30: for two `int`-like objects holding 10 and 20 (moving is copying),
`mystl::swap` leaves 20 in both: the value of `lhs` is lost, because the last
statement assigns from `lhs` again and not from `tmp`.  A second `swap` does not bring
10 back, and `swap_range` over `[1, 3)` and `[3, 5)` leaves 30, 40 in both ranges.
For a type whose moved-from value is 0, `swap` leaves `lhs` moved-from. -/
theorem swap_loses_left_value :
    (mem0.slot 1).val = 10 ∧ (mem0.slot 2).val = 20 ∧
    ((swap trivial_type 1 2 mem0).slot 1).val = 20 ∧
    ((swap trivial_type 1 2 mem0).slot 2).val = 20 ∧
    ((swap trivial_type 1 2 (swap trivial_type 1 2 mem0)).slot 1).val = 20 ∧
    ((swap trivial_type 1 2 (swap trivial_type 1 2 mem0)).slot 2).val = 20 ∧
    ((swap_range trivial_type 1 3 3 mem0).1.slot 1).val = 30 ∧
    ((swap_range trivial_type 1 3 3 mem0).1.slot 2).val = 40 ∧
    ((swap_range trivial_type 1 3 3 mem0).1.slot 3).val = 30 ∧
    ((swap_range trivial_type 1 3 3 mem0).1.slot 4).val = 40 ∧
    ((swap (throwing_at 0) 1 2 mem0).slot 1).val = 0 ∧
    ((swap (throwing_at 0) 1 2 mem0).slot 2).val = 20 := by
  decide

end mystl

namespace mystl

/-! ## Comparison operators of pair -/

/-- C31: whatever the fuel and the pairs, the evaluation of `operator>` does not
return: it calls itself with the arguments exchanged, again and again; and neither
does `operator<=`, which calls `operator>`.  So neither returns the value of
`rhs < lhs`, respectively `!(rhs < lhs)`.  Only `operator>=` returns, `!(lhs < rhs)`,
`operator<` being the lexicographic order. -/
theorem pair_operator_gt_never_returns (A : Compare α) (B : Compare β) (fuel : Nat)
    (lhs rhs : pair α β) :
    operator_gt fuel lhs rhs = none ∧
    operator_gt fuel lhs rhs ≠ some (operator_lt A B rhs lhs) ∧
    operator_le fuel lhs rhs = none ∧
    operator_le fuel lhs rhs ≠ some (!operator_lt A B rhs lhs) ∧
    operator_ge A B lhs rhs = !operator_lt A B lhs rhs ∧
    operator_lt A B lhs rhs
      = (A.lt lhs.first rhs.first || (A.eq lhs.first rhs.first && B.lt lhs.second rhs.second)) := by
  have hgt : ∀ (fuel : Nat) (lhs rhs : pair α β), operator_gt fuel lhs rhs = none := by
    intro fuel
    induction fuel with
    | zero => intro lhs rhs; rfl
    | succ fuel ih => intro lhs rhs; exact ih rhs lhs
  refine ⟨hgt fuel lhs rhs, ?_, ?_, ?_, rfl, rfl⟩
  · rw [hgt]; simp
  · simp [operator_le, hgt]
  · simp [operator_le, hgt]

/-! ## advance -/

/-- With enough fuel the loop `while (n--) ++i;` on `n >= 0` ends with `i + n`. -/
theorem advance_loop_forward_eq (k fuel : Nat) (i : Int) (h : k < fuel) :
    advance_loop_forward fuel i (k : Int) = some (i + k) := by
  induction k generalizing fuel i with
  | zero =>
    obtain ⟨fuel, rfl⟩ : ∃ j, fuel = j + 1 := ⟨fuel - 1, by omega⟩
    simp [advance_loop_forward]
  | succ k ih =>
    obtain ⟨fuel, rfl⟩ : ∃ j, fuel = j + 1 := ⟨fuel - 1, by omega⟩
    have hne : ((k + 1 : Nat) : Int) ≠ 0 := by omega
    rw [advance_loop_forward, if_pos hne,
      show ((k + 1 : Nat) : Int) - 1 = (k : Int) by omega, ih fuel (i + 1) (by omega)]
    congr 1
    omega

/-- With enough fuel the loop `while (n++) --i;` on `n <= 0` ends with `i + n`. -/
theorem advance_loop_backward_eq (k fuel : Nat) (i : Int) (h : k < fuel) :
    advance_loop_backward fuel i (-(k : Int)) = some (i - k) := by
  induction k generalizing fuel i with
  | zero =>
    obtain ⟨fuel, rfl⟩ : ∃ j, fuel = j + 1 := ⟨fuel - 1, by omega⟩
    simp [advance_loop_backward]
  | succ k ih =>
    obtain ⟨fuel, rfl⟩ : ∃ j, fuel = j + 1 := ⟨fuel - 1, by omega⟩
    have hne : -((k + 1 : Nat) : Int) ≠ 0 := by omega
    rw [advance_loop_backward, if_pos hne,
      show -((k + 1 : Nat) : Int) + 1 = -(k : Int) by omega, ih fuel (i - 1) (by omega)]
    congr 1
    omega

/-- C32: for every position `i` and every distance `n >= 0`, the input-iterator, the
bidirectional and the random-access version of `advance_dispatch` end (the loops
after `n + 1` evaluations of their condition) with `i` exactly `n` positions forward;
for every `n < 0` the bidirectional version ends (after `|n| + 1` evaluations) with
`i` exactly `|n|` positions backward, which is the random-access result `i += n`;
`advance` selects these versions by the iterator's category. -/
theorem advance_dispatch_versions_agree (i n : Int) (fuel : Nat) (hfuel : n.natAbs < fuel) :
    (0 ≤ n →
      advance_dispatch_input fuel i n = some (i + n) ∧
      advance_dispatch_bidirectional fuel i n = some (i + n) ∧
      advance_dispatch_random_access i n = i + n ∧
      advance IteratorTag.input fuel i n = some (i + n) ∧
      advance IteratorTag.forward fuel i n = some (i + n) ∧
      advance IteratorTag.bidirectional fuel i n = some (i + n) ∧
      advance IteratorTag.random_access fuel i n = some (i + n)) ∧
    (n < 0 →
      advance_dispatch_bidirectional fuel i n = some (i - (n.natAbs : Int)) ∧
      advance_dispatch_bidirectional fuel i n = some (advance_dispatch_random_access i n) ∧
      advance IteratorTag.bidirectional fuel i n
        = advance IteratorTag.random_access fuel i n) := by
  constructor
  · intro hn
    obtain ⟨k, rfl⟩ := Int.eq_ofNat_of_zero_le hn
    have hk : k < fuel := by simpa using hfuel
    have h1 := advance_loop_forward_eq k fuel i hk
    simp [advance, advance_dispatch_input, advance_dispatch_bidirectional,
      advance_dispatch_random_access, h1]
  · intro hn
    obtain ⟨k, hk⟩ : ∃ k : Nat, n = -(k : Int) := ⟨n.natAbs, by omega⟩
    subst hk
    have hk : k < fuel := by simpa using hfuel
    have h1 := advance_loop_backward_eq k fuel i hk
    have hneg : ¬ (-(k : Int) ≥ 0) := by omega
    simp only [advance, advance_dispatch_bidirectional, advance_dispatch_random_access, hneg,
      if_false, h1, Int.natAbs_neg, Int.natAbs_ofNat]
    refine ⟨trivial, ?_, ?_⟩ <;> congr 1

/-- Witness for C32: from position 5, three steps forward and three steps backward. -/
theorem advance_dispatch_versions_agree_witness :
    advance_dispatch_input 4 5 3 = some (5 + 3) ∧
    advance_dispatch_bidirectional 4 5 3 = some (5 + 3) ∧
    advance_dispatch_bidirectional 4 5 (-3) = some (5 - ((-3 : Int).natAbs : Int)) ∧
    advance_dispatch_bidirectional 4 5 (-3) = some (advance_dispatch_random_access 5 (-3)) :=
  ⟨((advance_dispatch_versions_agree 5 3 4 (by decide)).1 (by decide)).1,
   ((advance_dispatch_versions_agree 5 3 4 (by decide)).1 (by decide)).2.1,
   ((advance_dispatch_versions_agree 5 (-3) 4 (by decide)).2 (by decide)).1,
   ((advance_dispatch_versions_agree 5 (-3) 4 (by decide)).2 (by decide)).2.1⟩

end mystl
